import Mathlib

/-!
Verification model of the weather desktop application (src/app1.py).

The application is a PyQt widget (`WeatherApp`) over four leaf helpers:
`get_weather_icon`, `save_to_cache`, `load_from_cache` and the grouping /
rendering routine `display_forecast`.  This file embeds those functions and
the fetch / cache / display control flow of `fetch_weather`,
`get_weather_data`, `display_cached_weather`, `toggle_theme`,
`refresh_display`, `change_language` and `fetch_weather_by_location` as pure
Lean functions over an explicit application state, with network outcomes
supplied as oracle values and the on-disk cache file carried as an
`Option String` (file contents, or absence).

JSON values are modelled by the inductive `Json`; numbers are modelled as
integers (the integer fields `sunrise`, `sunset`, `timezone`, `cod` are what
the control flow inspects; floating-point serialization is outside the
embedding).  `json.dump` / `json.load` are modelled by an executable
serializer `dumpJson` and parser `parseJson` over the exact textual format
CPython's `json.dump` emits with default arguments (separators `", "` and
`": "`, `ensure_ascii=True` escaping, surrogate pairs for astral code
points), and the round-trip `parseJson (dumpJson j) = some j` is proved.
-/

/-! ## JSON values -/

mutual
/-- A JSON value as produced by `response.json()` / `json.load`.  Numbers are
modelled as integers (see the file header). -/
inductive Json where
  | null : Json
  | bool : Bool → Json
  | num : Int → Json
  | str : String → Json
  | arr : JArr → Json
  | obj : JObj → Json
  deriving DecidableEq
/-- A JSON array (list of values). -/
inductive JArr where
  | nil : JArr
  | cons : Json → JArr → JArr
  deriving DecidableEq
/-- A JSON object (ordered key/value pairs; objects coming from `json.load`
have pairwise distinct keys). -/
inductive JObj where
  | nil : JObj
  | cons : String → Json → JObj → JObj
  deriving DecidableEq
end

/-- Lookup of a key in a JSON object's pair list (first match).  On the
unique-keyed objects produced by `json.load` this is Python `dict` lookup. -/
def JObj.find : JObj → String → Option Json
  | .nil, _ => none
  | .cons k v t, key => if k = key then some v else t.find key

/-- Python `data.get(key)`: `none` means `data` is not a dict, so `.get`
raises `AttributeError`; `some r` is the result of `.get` (with `r = none`
for a missing key, i.e. Python `None`-as-default). -/
def dictGet : Json → String → Option (Option Json)
  | .obj kvs, key => some (kvs.find key)
  | _, _ => none

/-- Python truthiness of a JSON value (`if data:`): `None`, `False`, `0`,
`""`, `[]` and `{}` are falsy, everything else is truthy. -/
def Json.isTruthy : Json → Bool
  | .null => false
  | .bool b => b
  | .num i => i != 0
  | .str s => s != ""
  | .arr .nil => false
  | .arr (.cons _ _) => true
  | .obj .nil => false
  | .obj (.cons _ _ _) => true

/-- Truthiness of `self.current_weather_data` (`None` or a JSON value). -/
def truthyOpt : Option Json → Bool
  | none => false
  | some j => j.isTruthy

/-! ## Serializer: the text `json.dump(data, file)` writes

CPython's `json.dump` with default arguments uses item separator `", "`,
key separator `": "`, and `ensure_ascii=True` string escaping with
lowercase hex `\uXXXX` escapes and UTF-16 surrogate pairs for code points
above `0xFFFF`. -/

/-- The `{` character (written via its code point). -/
def lbrace : Char := Char.ofNat 123

/-- The `}` character (written via its code point). -/
def rbrace : Char := Char.ofNat 125

/-- Decimal digit character for `n < 10`. -/
def digitChar48 (n : Nat) : Char := Char.ofNat (48 + n)

/-- Decimal digits of `n`, most significant first, on explicit fuel so that
the definition is structural (hence kernel-evaluable).  Adequate whenever
`n < fuel`. -/
def natCharsAux : Nat → Nat → List Char
  | 0, _ => []
  | f + 1, n => if n < 10 then [digitChar48 n] else natCharsAux f (n / 10) ++ [digitChar48 (n % 10)]

/-- Decimal representation of a natural number, as `repr` prints it. -/
def natChars (n : Nat) : List Char := natCharsAux (n + 1) n

/-- Decimal representation of a Python `int`, as `json.dump` prints it. -/
def dumpInt (i : Int) : List Char :=
  if i < 0 then '-' :: natChars (-i).toNat else natChars i.toNat

/-- Lowercase hexadecimal digit character for `n < 16`. -/
def hexDigitL (n : Nat) : Char :=
  if n < 10 then Char.ofNat (48 + n) else Char.ofNat (87 + n)

/-- Four lowercase hex digits of `n < 0x10000` (the `%04x` of `\uXXXX`). -/
def hex4 (n : Nat) : List Char :=
  [hexDigitL (n / 4096 % 16), hexDigitL (n / 256 % 16), hexDigitL (n / 16 % 16), hexDigitL (n % 16)]

/-- `ensure_ascii=True` escaping of one character, per CPython's
`py_encode_basestring_ascii`: `\"` `\\` `\n` `\t` `\r` `\b` `\f` as short
escapes, every other control or non-ASCII character as `\uXXXX` (a surrogate
pair for code points above `0xFFFF`), printable ASCII verbatim. -/
def escChar (c : Char) : List Char :=
  if c = '"' then ['\\', '"']
  else if c = '\\' then ['\\', '\\']
  else if c = '\n' then ['\\', 'n']
  else if c = '\t' then ['\\', 't']
  else if c = '\r' then ['\\', 'r']
  else if c.toNat = 8 then ['\\', 'b']
  else if c.toNat = 12 then ['\\', 'f']
  else if c.toNat < 32 then '\\' :: 'u' :: hex4 c.toNat
  else if c.toNat ≤ 126 then [c]
  else if c.toNat ≤ 65535 then '\\' :: 'u' :: hex4 c.toNat
  else
    '\\' :: 'u' :: hex4 (55296 + (c.toNat - 65536) / 1024) ++
      '\\' :: 'u' :: hex4 (56320 + (c.toNat - 65536) % 1024)

/-- Escaping of a character sequence (body of a JSON string literal). -/
def escList : List Char → List Char
  | [] => []
  | c :: cs => escChar c ++ escList cs

/-- A JSON string literal: quote, escaped body, quote. -/
def escString (s : String) : List Char := '"' :: (escList s.data ++ ['"'])

mutual
/-- Characters `json.dump` writes for a value (default separators). -/
def dumpV : Json → List Char
  | .null => "null".data
  | .bool true => "true".data
  | .bool false => "false".data
  | .num i => dumpInt i
  | .str s => escString s
  | .arr .nil => ['[', ']']
  | .arr (.cons j t) => '[' :: (dumpV j ++ dumpA t) ++ [']']
  | .obj .nil => [lbrace, rbrace]
  | .obj (.cons k v t) => lbrace :: (escString k ++ ':' :: ' ' :: dumpV v ++ dumpO t) ++ [rbrace]
/-- Remaining array items, each preceded by the `", "` separator. -/
def dumpA : JArr → List Char
  | .nil => []
  | .cons j t => ',' :: ' ' :: (dumpV j ++ dumpA t)
/-- Remaining object items, each preceded by the `", "` separator. -/
def dumpO : JObj → List Char
  | .nil => []
  | .cons k v t => ',' :: ' ' :: (escString k ++ ':' :: ' ' :: dumpV v ++ dumpO t)
end

/-- The full cache-file text `json.dump(data, file)` produces. -/
def dumpJson (j : Json) : String := ⟨dumpV j⟩

/-! ## Parser: `json.load` on the cache file

The parser is an executable recursive-descent parser over the character
list of the file, written against the canonical text the serializer above
emits (which is the only text the application ever writes to the cache
file).  Note one deliberate restriction: a `\uXXXX` escape denoting a lone
surrogate is rejected (Lean characters are Unicode scalar values); the
serializer never emits lone surrogates. -/

/-- Decimal digit test. -/
def isDigitC (c : Char) : Bool := 48 ≤ c.toNat && c.toNat ≤ 57

/-- Value of a decimal digit character. -/
def digitVal (c : Char) : Nat := c.toNat - 48

/-- Value of a most-significant-first decimal digit list. -/
def digitsVal (cs : List Char) : Nat := cs.foldl (fun a c => a * 10 + digitVal c) 0

/-- Value of a hex digit character (either case), or `none`. -/
def hexVal (c : Char) : Option Nat :=
  if 48 ≤ c.toNat && c.toNat ≤ 57 then some (c.toNat - 48)
  else if 97 ≤ c.toNat && c.toNat ≤ 102 then some (c.toNat - 87)
  else if 65 ≤ c.toNat && c.toNat ≤ 70 then some (c.toNat - 55)
  else none

/-- Read exactly four hex digits (the `XXXX` of a `\uXXXX` escape). -/
def parse4Hex : List Char → Option (Nat × List Char)
  | a :: b :: c :: d :: rest =>
    match hexVal a, hexVal b, hexVal c, hexVal d with
    | some va, some vb, some vc, some vd => some (((va * 16 + vb) * 16 + vc) * 16 + vd, rest)
    | _, _, _, _ => none
  | _ => none

/-- Decode a single-character escape (`\"` `\\` `\/` `\n` `\t` `\r` `\b` `\f`). -/
def escDecode1 (e : Char) : Option Char :=
  if e = '"' then some '"'
  else if e = '\\' then some '\\'
  else if e = '/' then some '/'
  else if e = 'n' then some '\n'
  else if e = 't' then some '\t'
  else if e = 'r' then some '\r'
  else if e = 'b' then some (Char.ofNat 8)
  else if e = 'f' then some (Char.ofNat 12)
  else none

/-- Decode the digits of a `\uXXXX` escape (the backslash and `u` already
consumed), recombining a surrogate pair into one code point.  A lone
surrogate is rejected (see the section comment). -/
def decodeU (r : List Char) : Option (Char × List Char) :=
  match parse4Hex r with
  | none => none
  | some (n1, r2) =>
    if 55296 ≤ n1 && n1 ≤ 56319 then
      match r2 with
      | '\\' :: 'u' :: r3 =>
        match parse4Hex r3 with
        | none => none
        | some (n2, r4) =>
          if 56320 ≤ n2 && n2 ≤ 57343 then
            some (Char.ofNat (65536 + (n1 - 55296) * 1024 + (n2 - 56320)), r4)
          else none
      | _ => none
    else if 56320 ≤ n1 && n1 ≤ 57343 then none
    else some (Char.ofNat n1, r2)

/-- Parse the body of a string literal up to and including the closing
quote, decoding escapes (recombining surrogate pairs).  Fuel-indexed; one
unit of fuel per decoded character, so any fuel beyond the decoded length
suffices. -/
def parseStrBody : Nat → List Char → Option (List Char × List Char)
  | 0, _ => none
  | f + 1, cs =>
    match cs with
    | [] => none
    | c :: r =>
      if c = '"' then some ([], r)
      else if c = '\\' then
        match r with
        | [] => none
        | e :: r2 =>
          match escDecode1 e with
          | some d => (parseStrBody f r2).map (fun p => (d :: p.1, p.2))
          | none =>
            if e = 'u' then
              match decodeU r2 with
              | none => none
              | some (d, r3) => (parseStrBody f r3).map (fun p => (d :: p.1, p.2))
            else none
      else (parseStrBody f r).map (fun p => (c :: p.1, p.2))

/-- Parse a nonempty run of decimal digits. -/
def parseNatNum (cs : List Char) : Option (Nat × List Char) :=
  let ds := cs.takeWhile isDigitC
  if ds.isEmpty then none else some (digitsVal ds, cs.dropWhile isDigitC)

/-- Parse an integer literal (optional minus sign, digits). -/
def parseNum (cs : List Char) : Option (Int × List Char) :=
  match cs with
  | '-' :: rest => (parseNatNum rest).map (fun p => (-(p.1 : Int), p.2))
  | _ => (parseNatNum cs).map (fun p => ((p.1 : Int), p.2))

mutual
/-- Parse one JSON value.  Fuel-indexed (one unit per nesting step); the
`", "` and `": "` separators are those the serializer emits. -/
def parseV : Nat → List Char → Option (Json × List Char)
  | 0, _ => none
  | f + 1, cs =>
    match cs with
    | [] => none
    | c :: r =>
      if c = 'n' then match r with | 'u' :: 'l' :: 'l' :: r2 => some (.null, r2) | _ => none
      else if c = 't' then match r with | 'r' :: 'u' :: 'e' :: r2 => some (.bool true, r2) | _ => none
      else if c = 'f' then match r with | 'a' :: 'l' :: 's' :: 'e' :: r2 => some (.bool false, r2) | _ => none
      else if c = '"' then (parseStrBody (r.length + 1) r).map (fun p => (.str ⟨p.1⟩, p.2))
      else if c = '[' then
        match r with
        | ']' :: r2 => some (.arr .nil, r2)
        | _ =>
          (parseAI f r).bind fun p =>
            match p.2 with
            | ']' :: r3 => some (.arr p.1, r3)
            | _ => none
      else if c = lbrace then
        match r with
        | c2 :: r2 =>
          if c2 = rbrace then some (.obj .nil, r2)
          else
            (parseOI f r).bind fun p =>
              match p.2 with
              | c3 :: r3 => if c3 = rbrace then some (.obj p.1, r3) else none
              | _ => none
        | [] => none
      else if c = '-' || isDigitC c then (parseNum (c :: r)).map (fun p => (.num p.1, p.2))
      else none
/-- Parse one or more `", "`-separated array items. -/
def parseAI : Nat → List Char → Option (JArr × List Char)
  | 0, _ => none
  | f + 1, cs =>
    (parseV f cs).bind fun p =>
      match p.2 with
      | ',' :: ' ' :: r2 => (parseAI f r2).map (fun q => (JArr.cons p.1 q.1, q.2))
      | _ => some (JArr.cons p.1 .nil, p.2)
/-- Parse one or more `", "`-separated `"key": value` object items. -/
def parseOI : Nat → List Char → Option (JObj × List Char)
  | 0, _ => none
  | f + 1, cs =>
    match cs with
    | '"' :: r =>
      (parseStrBody (r.length + 1) r).bind fun pk =>
        match pk.2 with
        | ':' :: ' ' :: r3 =>
          (parseV f r3).bind fun pv =>
            match pv.2 with
            | ',' :: ' ' :: r5 => (parseOI f r5).map (fun q => (JObj.cons ⟨pk.1⟩ pv.1 q.1, q.2))
            | _ => some (JObj.cons ⟨pk.1⟩ pv.1 .nil, pv.2)
        | _ => none
    | _ => none
end

/-- The whole-file parse `json.load` performs on the cache file: one value
covering the entire text. -/
def parseJson (s : String) : Option Json :=
  match parseV (s.length + 1) s.data with
  | some (j, []) => some j
  | _ => none

/-! ## Python string and date helpers used by the application -/

/-- Python whitespace (the character set `str.strip()` removes). -/
def isPySpace (c : Char) : Bool :=
  let n := c.toNat
  (9 ≤ n && n ≤ 13) || (28 ≤ n && n ≤ 31) || n = 32 || n = 133 || n = 160 ||
  n = 5760 || (8192 ≤ n && n ≤ 8202) || n = 8232 || n = 8233 || n = 8239 || n = 8287 || n = 12288

/-- Python `s.strip()`. -/
def pyStrip (s : String) : String :=
  ⟨((s.data.dropWhile isPySpace).reverse.dropWhile isPySpace).reverse⟩

/-- Python `s.split(" ")`: split at every single space, keeping empty
fields (`"".split(" ") = [""]`, `"a  b".split(" ") = ["a","","b"]`). -/
def splitSp : List Char → List (List Char)
  | [] => [[]]
  | c :: r =>
    if c = ' ' then [] :: splitSp r
    else
      match splitSp r with
      | h :: t => (c :: h) :: t
      | [] => [[c]]

/-- ASCII-range uppercase mapping. -/
def asciiUpper (c : Char) : Char :=
  if 97 ≤ c.toNat && c.toNat ≤ 122 then Char.ofNat (c.toNat - 32) else c

/-- ASCII-range lowercase mapping. -/
def asciiLower (c : Char) : Char :=
  if 65 ≤ c.toNat && c.toNat ≤ 90 then Char.ofNat (c.toNat + 32) else c

/-- Python `s.capitalize()` (ASCII case mapping; the full Unicode
title-case table is outside the embedding — weather descriptions are
plain API text). -/
def pyCapitalize (s : String) : String :=
  match s.data with
  | [] => ""
  | c :: r => ⟨asciiUpper c :: r.map asciiLower⟩

/-- Gregorian leap year, as `datetime` uses. -/
def isLeap (y : Nat) : Bool := y % 4 = 0 && (y % 100 != 0 || y % 400 = 0)

/-- Days in a month, as validated by the `datetime` constructor. -/
def daysInMonth (y m : Nat) : Nat :=
  if m = 2 then (if isLeap y then 29 else 28)
  else if m = 4 || m = 6 || m = 9 || m = 11 then 30
  else 31

/-- The `%Y` field of `strptime`: exactly four decimal digits. -/
def parseYear4 : List Char → Option (Nat × List Char)
  | a :: b :: c :: d :: r =>
    if isDigitC a && isDigitC b && isDigitC c && isDigitC d then
      some (digitsVal [a, b, c, d], r)
    else none
  | _ => none

/-- The `%m` field of `strptime` (regex `1[0-2]|0[1-9]|[1-9]`). -/
def parseMonthF : List Char → Option (Nat × List Char)
  | a :: b :: r =>
    if a = '1' && (b = '0' || b = '1' || b = '2') then some (digitsVal [a, b], r)
    else if a = '0' && isDigitC b && 1 ≤ digitVal b then some (digitVal b, r)
    else if isDigitC a && 1 ≤ digitVal a then some (digitVal a, b :: r)
    else none
  | [a] => if isDigitC a && 1 ≤ digitVal a then some (digitVal a, []) else none
  | [] => none

/-- The `%d` field of `strptime` (regex `3[01]|[12]\d|0[1-9]|[1-9]`). -/
def parseDayF : List Char → Option (Nat × List Char)
  | a :: b :: r =>
    if a = '3' && (b = '0' || b = '1') then some (digitsVal [a, b], r)
    else if (a = '1' || a = '2') && isDigitC b then some (digitsVal [a, b], r)
    else if a = '0' && isDigitC b && 1 ≤ digitVal b then some (digitVal b, r)
    else if isDigitC a && 1 ≤ digitVal a then some (digitVal a, b :: r)
    else none
  | [a] => if isDigitC a && 1 ≤ digitVal a then some (digitVal a, []) else none
  | [] => none

/-- `datetime.strptime(date_str, "%Y-%m-%d")`: the whole string must match,
the `datetime` constructor then validates the day against the calendar and
the year against `MINYEAR = 1`. -/
def parseDateYMD (s : String) : Option (Nat × Nat × Nat) :=
  match parseYear4 s.data with
  | none => none
  | some (y, r1) =>
    match r1 with
    | '-' :: r2 =>
      match parseMonthF r2 with
      | none => none
      | some (m, r3) =>
        match r3 with
        | '-' :: r4 =>
          match parseDayF r4 with
          | some (d, []) =>
            if 1 ≤ y && 1 ≤ d && d ≤ daysInMonth y m then some (y, m, d) else none
          | _ => none
        | _ => none
    | _ => none

/-- Two-digit zero-padded decimal (the `%H`/`%M`/`%d`/`%m` padding). -/
def pad2 (n : Nat) : List Char := if n < 10 then ['0', digitChar48 n] else natChars n

/-- `datetime.utcfromtimestamp(t).strftime("%H:%M")` for an integer `t`. -/
def fmtHM (t : Int) : String :=
  let sec := (t.emod 86400).toNat
  ⟨pad2 (sec / 3600) ++ ':' :: pad2 (sec % 3600 / 60)⟩

/-- `date_obj.strftime("%d/%m/%Y")` from the parsed `(y, m, d)`. -/
def fmtDMY (y m d : Nat) : String := ⟨pad2 d ++ '/' :: pad2 m ++ '/' :: natChars y⟩

/-- `datetime.utcfromtimestamp` accepts timestamps for years 1..9999 and
raises `OverflowError`/`ValueError` outside that range. -/
def tsOK (t : Int) : Bool := -62135596800 ≤ t && t ≤ 253402300799

/-! ## Forecast grouping (`display_forecast`, lines 761-765)

The loop
```
daily_forecasts = defaultdict(list)
for forecast in data.get("list", []):
    dt_txt = forecast.get("dt_txt", "")
    date_str = dt_txt.split(" ")[0]
    daily_forecasts[date_str].append(forecast)
```
is a left fold over `(key, entry)` pairs: the first occurrence of a key
appends a fresh group at the end (dict insertion order), later occurrences
append the entry to that key's existing list. -/

/-- One `daily_forecasts[date_str].append(forecast)` step on the ordered
group list. -/
def insertAppend (gs : List (String × List α)) (k : String) (v : α) : List (String × List α) :=
  match gs with
  | [] => [(k, [v])]
  | (k', vs) :: rest => if k' = k then (k', vs ++ [v]) :: rest else (k', vs) :: insertAppend rest k v

/-- The grouping loop: fold `insertAppend` over the keyed entries. -/
def groupPairs (ps : List (String × α)) : List (String × List α) :=
  ps.foldl (fun gs p => insertAppend gs p.1 p.2) []

/-- Keys in first-appearance order (specification-side characterisation of
dict insertion order, to compare `groupPairs` against). -/
def firstOccur (ks : List String) : List String :=
  ks.foldl (fun acc k => if k ∈ acc then acc else acc ++ [k]) []

/-! ## Rendering model (`display_forecast`, lines 724-851)

`display_forecast` is modelled as a pure function from the payload and the
city string to the list of top-level frames inserted into
`forecast_layout` (the scroll area's vertical layout), or `none` when the
Python code would raise while rendering (`KeyError`/`TypeError`/
`IndexError`/`ValueError` on malformed data — such an exception escapes
`display_forecast` and is handled, or not, by the caller).  Label text
around the data (translated captions, the `°C`/`°F` suffix, emoji) and the
stylesheet strings are presentation and are not part of the widget model;
the icon download performed per entry is modelled separately by
`get_weather_icon`, the widget here keeps the raw icon field. -/

/-- The data content of one `forecastFrame` (one 3-hour entry). -/
structure EntryView where
  /-- `forecast["dt_txt"].split(" ")[1][:5]`. -/
  time : String
  /-- `forecast["main"].get("temp", "N/A")` (raw value; label formatting is presentation). -/
  temp : Json
  /-- `forecast["weather"][0].get("description", "").capitalize()`. -/
  description : String
  /-- `forecast["main"].get("humidity", "N/A")`. -/
  humidity : Json
  /-- `forecast["main"].get("pressure", "N/A")`. -/
  pressure : Json
  /-- `forecast["wind"].get("speed", "N/A")`. -/
  wind_speed : Json
  /-- `forecast["weather"][0].get("icon", "")` (raw value). -/
  icon : Json
  deriving DecidableEq

/-- A top-level frame of the forecast layout. -/
inductive Widget where
  /-- The city header (`cityFrame`): location plus local sunrise/sunset times. -/
  | cityFrame (city : String) (sunriseLocal sunsetLocal : String)
  /-- One day's frame (`dayFrame`): formatted date header plus its entries in order. -/
  | dayFrame (dateFormatted : String) (entries : List EntryView)
  /-- A `show_message` label. -/
  | message (text : String)
  deriving DecidableEq

/-- Conversion of a `JArr` to a Lean list. -/
def JArr.toList : JArr → List Json
  | .nil => []
  | .cons j t => j :: t.toList

/-- `data["city"]` header: reads `sunrise`, `sunset`, `timezone` and formats
the shifted times; `none` when the Python code would raise (missing key,
non-dict, non-number field, timestamp out of `datetime` range). -/
def renderCity (data : Json) (city : String) : Option Widget :=
  match data with
  | .obj kvs =>
    match kvs.find "city" with
    | some (.obj cKvs) =>
      match cKvs.find "sunrise", cKvs.find "sunset", cKvs.find "timezone" with
      | some (.num rise), some (.num sunset), some (.num tz) =>
        if tsOK (rise + tz) && tsOK (sunset + tz) then
          some (.cityFrame city (fmtHM (rise + tz)) (fmtHM (sunset + tz)))
        else none
      | _, _, _ => none
    | _ => none
  | _ => none

/-- `data.get("list", [])` followed by iteration: missing key yields no
entries; iterating an empty string or empty dict also yields no entries;
any other non-list value raises once iteration touches it (`TypeError`, or
`AttributeError` on the first yielded element). -/
def entriesOf (data : Json) : Option (List Json) :=
  match data with
  | .obj kvs =>
    match kvs.find "list" with
    | none => some []
    | some (.arr xs) => some xs.toList
    | some (.str s) => if s = "" then some [] else none
    | some (.obj .nil) => some []
    | some _ => none
  | _ => none

/-- Grouping key of one entry: `forecast.get("dt_txt", "").split(" ")[0]`;
`none` when the entry is not a dict (`.get` raises) or `dt_txt` is present
but not a string (`.split` raises). -/
def groupKey (e : Json) : Option String :=
  match e with
  | .obj kvs =>
    match kvs.find "dt_txt" with
    | none => some ""
    | some (.str s) => some ⟨(splitSp s.data).headD []⟩
    | some _ => none
  | _ => none

/-- The grouping loop's key extraction over the whole entry list. -/
def keyedOf : List Json → Option (List (String × Json))
  | [] => some []
  | e :: r =>
    match groupKey e with
    | none => none
    | some k => (keyedOf r).map (fun t => (k, e) :: t)

/-- Rendering of one entry into a `forecastFrame` (lines 792-848); `none`
when the Python code would raise: `dt_txt` missing (line 793 indexes
without a default), no second `split` field (`IndexError`), `main` /
`weather` / `wind` missing or of the wrong shape, or a non-string
description (`.capitalize` raises). -/
def renderEntry (e : Json) : Option EntryView :=
  match e with
  | .obj kvs =>
    match kvs.find "dt_txt" with
    | some (.str dt) =>
      match (splitSp dt.data).get? 1 with
      | none => none
      | some t1 =>
        match kvs.find "main", kvs.find "weather", kvs.find "wind" with
        | some (.obj mainKvs), some (.arr (.cons (.obj wKvs) _)), some (.obj windKvs) =>
          match wKvs.find "description" with
          | some (.str desc) =>
            some { time := ⟨t1.take 5⟩, temp := (mainKvs.find "temp").getD (.str "N/A"),
                   description := pyCapitalize desc,
                   humidity := (mainKvs.find "humidity").getD (.str "N/A"),
                   pressure := (mainKvs.find "pressure").getD (.str "N/A"),
                   wind_speed := (windKvs.find "speed").getD (.str "N/A"),
                   icon := (wKvs.find "icon").getD (.str "") }
          | none =>
            some { time := ⟨t1.take 5⟩, temp := (mainKvs.find "temp").getD (.str "N/A"),
                   description := pyCapitalize "",
                   humidity := (mainKvs.find "humidity").getD (.str "N/A"),
                   pressure := (mainKvs.find "pressure").getD (.str "N/A"),
                   wind_speed := (windKvs.find "speed").getD (.str "N/A"),
                   icon := (wKvs.find "icon").getD (.str "") }
          | some _ => none
        | _, _, _ => none
    | _ => none
  | _ => none

/-- Rendering of one group's entry list, in list order. -/
def renderEntries : List Json → Option (List EntryView)
  | [] => some []
  | e :: r =>
    match renderEntry e with
    | none => none
    | some ev => (renderEntries r).map (fun t => ev :: t)

/-- Rendering of the grouped days in group order (lines 768-851):
`strptime` on the date key, then the day's frame. -/
def renderDays : List (String × List Json) → Option (List Widget)
  | [] => some []
  | (k, es) :: rest =>
    match parseDateYMD k with
    | none => none
    | some (y, m, d) =>
      match renderEntries es with
      | none => none
      | some evs => (renderDays rest).map (fun ws => Widget.dayFrame (fmtDMY y m d) evs :: ws)

/-- `display_forecast(data, city)`: clears the layout and fills it with the
city frame followed by one frame per day (groups in insertion order,
entries in source order).  `none` means the Python code raises while
rendering. -/
def display_forecast (data : Json) (city : String) : Option (List Widget) :=
  match renderCity data city with
  | none => none
  | some cf =>
    match entriesOf data with
    | none => none
    | some entries =>
      match keyedOf entries with
      | none => none
      | some keyed =>
        match renderDays (groupPairs keyed) with
        | none => none
        | some dayWs => some (cf :: dayWs)

/-! ## Application shell state (`WeatherApp`) and its transitions -/

/-- The language codes `self.language` ranges over (`"fr"`, `"en"`, `"ar"`;
initialised to `"fr"`, only ever set through `lang_map` whose default is
`"fr"`). -/
inductive Lang where
  | fr : Lang
  | en : Lang
  | ar : Lang
  deriving DecidableEq

/-- The language code string used in the request URL. -/
def langStr : Lang → String
  | .fr => "fr"
  | .en => "en"
  | .ar => "ar"

/-- The apostrophe character (used inside one translated string). -/
def apoc : Char := Char.ofNat 39

/-- `self.translations[self.language].get(key, key)` (the `_tr` helper),
with the exact table of the source. -/
def tr (l : Lang) (key : String) : String :=
  if key = "language" then match l with | .fr => "Langue" | .en => "Language" | .ar => "اللغة"
  else if key = "units" then match l with | .fr => "Unités" | .en => "Units" | .ar => "الوحدات"
  else if key = "search" then match l with | .fr => "Rechercher" | .en => "Search" | .ar => "بحث"
  else if key = "theme" then match l with | .fr => "Changer de Thème" | .en => "Switch Theme" | .ar => "تغيير السمة"
  else if key = "auto_geo" then match l with | .fr => "Géolocalisation automatique" | .en => "Auto geolocation" | .ar => "تحديد الموقع التلقائي"
  else if key = "enter_city" then match l with | .fr => "Entrez le nom de la ville" | .en => "Enter city name" | .ar => "أدخل اسم المدينة"
  else if key = "sunrise" then match l with | .fr => "Lever du soleil" | .en => "Sunrise" | .ar => "شروق الشمس"
  else if key = "sunset" then match l with | .fr => "Coucher du soleil" | .en => "Sunset" | .ar => "غروب الشمس"
  else if key = "weather_not_found" then match l with | .fr => "Ville non trouvée ou erreur API." | .en => "City not found or API error." | .ar => "المدينة غير موجودة أو خطأ في API."
  else if key = "geo_failed" then match l with | .fr => "Impossible de détecter l" ++ ⟨[apoc]⟩ ++ "emplacement." | .en => "Unable to detect location." | .ar => "غير قادر على تحديد الموقع."
  else if key = "geo_error" then match l with | .fr => "Erreur de géolocalisation" | .en => "Geolocation error" | .ar => "خطأ في تحديد الموقع"
  else if key = "no_cache" then match l with | .fr => "Aucune donnée en cache disponible." | .en => "No cached data available." | .ar => "لا توجد بيانات مخزنة متاحة."
  else if key = "weather_for" then match l with | .fr => "Prévisions pour le" | .en => "Forecast for" | .ar => "توقعات لـ"
  else if key = "temp" then match l with | .fr => "Température" | .en => "Temperature" | .ar => "درجة الحرارة"
  else if key = "description" then match l with | .fr => "Description" | .en => "Description" | .ar => "الوصف"
  else if key = "humidity" then match l with | .fr => "Humidité" | .en => "Humidity" | .ar => "الرطوبة"
  else if key = "pressure" then match l with | .fr => "Pression" | .en => "Pressure" | .ar => "الضغط"
  else if key = "wind" then match l with | .fr => "Vent" | .en => "Wind" | .ar => "الرياح"
  else if key = "location" then match l with | .fr => "Lieu" | .en => "Location" | .ar => "الموقع"
  else if key = "forecast" then match l with | .fr => "Prévisions" | .en => "Forecast" | .ar => "التوقعات"
  else if key = "current_weather" then match l with | .fr => "Météo actuelle" | .en => "Current weather" | .ar => "الطقس الحالي"
  else if key = "please_enter_city" then match l with | .fr => "Veuillez entrer une ville ou activer la géolocalisation." | .en => "Please enter a city or enable geolocation." | .ar => "الرجاء إدخال مدينة أو تمكين تحديد الموقع."
  else if key = "geo_success" then match l with | .fr => "Géolocalisation réussie" | .en => "Geolocation successful" | .ar => "تم تحديد الموقع بنجاح"
  else if key = "your_city" then match l with | .fr => "Votre ville détectée est" | .en => "Your detected city is" | .ar => "المدينة المكتشفة هي"
  else key

/-- `lang_map.get(lang_text, "fr")` in `change_language`. -/
def langMap (t : String) : Lang :=
  if t = "Français" then .fr else if t = "English" then .en else if t = "العربية" then .ar else .fr

/-- The hard-coded offline notice of `display_cached_weather` (line 860). -/
def offlineNotice : String := "📡 Données en cache affichées (pas de connexion Internet)"

/-- The mutable state of the application: the `WeatherApp` fields set in
`__init__`, the text of the city input widget, the on-disk cache file
contents (`weather_cache.json`, or `none` when absent), and the list of
top-level frames currently in the forecast layout.  `crashed` marks a state
in which an exception escaped the event handler (unmodelled beyond that
point). -/
structure AppState where
  language : Lang
  units : String
  auto_geo_enabled : Bool
  is_dark_theme : Bool
  current_city : String
  current_weather_data : Option Json
  city_input : String
  cacheFile : Option String
  layoutWidgets : List Widget
  crashed : Bool
  deriving DecidableEq

/-- Observable side effects of one event handler run, in order. -/
inductive Eff where
  /-- The forecast `requests.get` (query parameters: city, units, lang). -/
  | netForecast (city : String) (units : String) (lang : String)
  /-- The `http://ip-api.com/json` geolocation `requests.get`. -/
  | netGeo
  /-- `save_to_cache(data)`: the cache file is overwritten with this text. -/
  | cacheWrite (content : String)
  /-- `load_from_cache()`: the cache file is consulted. -/
  | cacheRead
  /-- `display_forecast(data, city)` is invoked. -/
  | render (data : Json) (city : String)
  deriving DecidableEq

/-- `save_to_cache(data)` (lines 41-43): open `weather_cache.json` in `"w"`
mode and `json.dump` the record — a wholesale overwrite of the single slot,
whatever the previous contents. -/
def save_to_cache (data : Json) (_file : Option String) : Option String :=
  some (dumpJson data)

/-- `load_from_cache()` (lines 46-50): `none` when the file does not exist,
otherwise the `json.load` of its contents (which raises on text that is not
valid JSON — the application only ever writes `dumpJson` output, on which
the round-trip theorem applies). -/
def load_from_cache (file : Option String) : Option (Option Json) :=
  match file with
  | none => some none
  | some content =>
    match parseJson content with
    | none => none
    | some j => some (some j)

/-- `show_message(message)` (lines 871-887): clear the forecast layout and
insert the single message label. -/
def show_message (s : AppState) (m : String) : AppState :=
  { s with layoutWidgets := [Widget.message m] }

/-- `cached_data["city"]["name"]` (line 857); `none` when that raises.  (A
non-string `name` would be string-formatted into the location label; only
string names are modelled.) -/
def cityNameOf (data : Json) : Option String :=
  match data with
  | .obj kvs =>
    match kvs.find "city" with
    | some (.obj cKvs) =>
      match cKvs.find "name" with
      | some (.str s) => some s
      | _ => none
    | _ => none
  | _ => none

/-- `display_cached_weather()` (lines 853-862).  Note the source's order:
`display_forecast` fills the layout with the cached forecast, and the
`show_message` call that follows immediately clears those widgets again and
leaves only the offline notice. -/
def display_cached_weather (s : AppState) : AppState × List Eff :=
  match load_from_cache s.cacheFile with
  | none => ({ s with crashed := true }, [Eff.cacheRead])
  | some none => (show_message s (tr s.language "no_cache"), [Eff.cacheRead])
  | some (some data) =>
    if data.isTruthy then
      match cityNameOf data with
      | none => ({ s with crashed := true }, [Eff.cacheRead])
      | some city =>
        let s1 := { s with current_weather_data := some data }
        match display_forecast data city with
        | none => ({ s1 with crashed := true }, [Eff.cacheRead, Eff.render data city])
        | some _ws => (show_message s1 offlineNotice, [Eff.cacheRead, Eff.render data city])
    else (show_message s (tr s.language "no_cache"), [Eff.cacheRead])

/-- Outcome of the forecast request as seen by `get_weather_data`'s `try`
block: either `requests.get` + `response.json()` produced a value, or one
of them raised. -/
inductive FetchResult where
  | ok (data : Json) : FetchResult
  | exn : FetchResult
  deriving DecidableEq

/-- `get_weather_data(city)` (lines 703-722).  The `try` block covers the
request, the JSON parse, the `cod` check, `save_to_cache` and
`display_forecast`; any exception inside it (including one raised while
rendering a malformed but `cod == "200"` payload, or by `.get` on a
non-dict response) falls to `display_cached_weather()`. -/
def get_weather_data (city : String) (r : FetchResult) (s : AppState) : AppState × List Eff :=
  let net := Eff.netForecast city s.units (langStr s.language)
  match r with
  | .exn =>
    let p := display_cached_weather s
    (p.1, net :: p.2)
  | .ok data =>
    match dictGet data "cod" with
    | none =>
      let p := display_cached_weather s
      (p.1, net :: p.2)
    | some cod =>
      if cod ≠ some (Json.str "200") then
        (show_message s (tr s.language "weather_not_found"), [net])
      else
        let s1 := { s with cacheFile := save_to_cache data s.cacheFile }
        let s2 := { s1 with current_weather_data := some data }
        match display_forecast data city with
        | some ws => ({ s2 with layoutWidgets := ws }, [net, Eff.cacheWrite (dumpJson data), Eff.render data city])
        | none =>
          let p := display_cached_weather s2
          (p.1, net :: Eff.cacheWrite (dumpJson data) :: Eff.render data city :: p.2)

/-- Outcome of the geolocation request as seen by
`fetch_weather_by_location`'s `try` block: a detected city, a parsed
response with `status != "success"`, or an exception (whose message text
is interpolated into the error label). -/
inductive GeoResult where
  | ok (city : String) : GeoResult
  | failStatus : GeoResult
  | exn (msg : String) : GeoResult
  deriving DecidableEq

/-- `fetch_weather_by_location()` (lines 686-701).  The success popup
(`QMessageBox.information`) is a modal dialog, not part of the forecast
layout. -/
def fetch_weather_by_location (g : GeoResult) (r : FetchResult) (s : AppState) : AppState × List Eff :=
  match g with
  | .ok city =>
    let s1 := { s with current_city := city, city_input := city }
    let p := get_weather_data city r s1
    (p.1, Eff.netGeo :: p.2)
  | .failStatus => (show_message s (tr s.language "geo_failed"), [Eff.netGeo])
  | .exn m => (show_message s (tr s.language "geo_error" ++ ": " ++ m), [Eff.netGeo])

/-- `fetch_weather()` (lines 671-684): strip the input, store it into
`current_city` unconditionally, then dispatch on emptiness and the
geolocation toggle. -/
def fetch_weather (g : GeoResult) (r : FetchResult) (s : AppState) : AppState × List Eff :=
  let city := pyStrip s.city_input
  let s0 := { s with current_city := city }
  if city = "" && !s0.auto_geo_enabled then
    (show_message s0 (tr s0.language "please_enter_city"), [])
  else if s0.auto_geo_enabled then fetch_weather_by_location g r s0
  else get_weather_data city r s0

/-- `refresh_display()` (lines 650-653): re-render only when both
`current_weather_data` and `current_city` are truthy.  An exception raised
by `display_forecast` here has no surrounding `try` — the handler crashes. -/
def refresh_display (s : AppState) : AppState × List Eff :=
  match s.current_weather_data with
  | some d =>
    if d.isTruthy && s.current_city ≠ "" then
      match display_forecast d s.current_city with
      | some ws => ({ s with layoutWidgets := ws }, [Eff.render d s.current_city])
      | none => ({ s with crashed := true }, [Eff.render d s.current_city])
    else (s, [])
  | none => (s, [])

/-- `toggle_theme()` (lines 290-296): flip the flag, re-apply the
stylesheet (presentation), then the guarded refresh. -/
def toggle_theme (s : AppState) : AppState × List Eff :=
  let s1 := { s with is_dark_theme := !s.is_dark_theme }
  if truthyOpt s1.current_weather_data then refresh_display s1 else (s1, [])

/-- `update_ui()` (lines 655-669): re-translate the widget captions
(presentation), then the guarded refresh. -/
def update_ui (s : AppState) : AppState × List Eff :=
  if truthyOpt s.current_weather_data then refresh_display s else (s, [])

/-- `change_language(lang_text)` (lines 269-276): set the language, run
`update_ui` (which refreshes), then refresh once more under the same
guard. -/
def change_language (langText : String) (s : AppState) : AppState × List Eff :=
  let s1 := { s with language := langMap langText }
  let p1 := update_ui s1
  let p2 := if truthyOpt p1.1.current_weather_data then refresh_display p1.1 else (p1.1, [])
  (p2.1, p1.2 ++ p2.2)

/-- `toggle_geo(state)` (lines 284-288). -/
def toggle_geo (checked : Bool) (g : GeoResult) (r : FetchResult) (s : AppState) : AppState × List Eff :=
  let s1 := { s with auto_geo_enabled := checked }
  if checked then fetch_weather_by_location g r s1 else (s1, [])

/-- The state after `__init__` (lines 84-95), over a given pre-existing
cache file. -/
def initState (cache0 : Option String) : AppState :=
  { language := .fr, units := "metric", auto_geo_enabled := false, is_dark_theme := false,
    current_city := "", current_weather_data := none, city_input := "",
    cacheFile := cache0, layoutWidgets := [], crashed := false }

/-! ## Icon cache (`get_weather_icon`, lines 19-38) -/

/-- On-disk state relevant to `get_weather_icon`: whether the `icon_cache`
directory exists and which files exist (file bytes are not inspected by the
code, only existence). -/
structure IconWorld where
  dirExists : Bool
  files : List String
  deriving DecidableEq

/-- Observable side effects of one `get_weather_icon` call, in order. -/
inductive IconEff where
  | mkdirCache : IconEff
  | httpGet (url : String) : IconEff
  deriving DecidableEq

/-- Outcome of the icon `requests.get`: a response with a status code, or a
raised exception. -/
inductive IconNet where
  | resp (status : Nat) : IconNet
  | exn : IconNet
  deriving DecidableEq

/-- `os.path.join("icon_cache", f"{icon_code}.png")`. -/
def iconPath (icon_code : String) : String := "icon_cache/" ++ icon_code ++ ".png"

/-- The icon CDN URL pattern. -/
def iconUrl (icon_code : String) : String :=
  "http://openweathermap.org/img/wn/" ++ icon_code ++ "@2x.png"

/-- `get_weather_icon(icon_code)`: ensure the cache directory, return the
path immediately if the file exists, otherwise download once; non-200
statuses and exceptions yield `None` (the caller substitutes a placeholder
glyph). -/
def get_weather_icon (icon_code : String) (net : IconNet) (w : IconWorld) :
    Option String × IconWorld × List IconEff :=
  let p := iconPath icon_code
  let w1 := if w.dirExists then w else { w with dirExists := true }
  let e1 : List IconEff := if w.dirExists then [] else [IconEff.mkdirCache]
  if p ∈ w1.files then (some p, w1, e1)
  else
    match net with
    | .resp st =>
      if st = 200 then (some p, { w1 with files := p :: w1.files }, e1 ++ [IconEff.httpGet (iconUrl icon_code)])
      else (none, w1, e1 ++ [IconEff.httpGet (iconUrl icon_code)])
    | .exn => (none, w1, e1 ++ [IconEff.httpGet (iconUrl icon_code)])

/-! ## Concrete payloads and states used to instantiate the theorems -/

/-- A well-formed 3-hour forecast entry as the API returns it. -/
def entry1 : Json :=
  .obj (.cons "dt_txt" (.str "2025-06-01 12:00:00")
    (.cons "main" (.obj (.cons "temp" (.num 21) (.cons "humidity" (.num 40) (.cons "pressure" (.num 1013) .nil))))
    (.cons "weather" (.arr (.cons (.obj (.cons "description" (.str "ciel dégagé") (.cons "icon" (.str "01d") .nil))) .nil))
    (.cons "wind" (.obj (.cons "speed" (.num 3) .nil)) .nil))))

/-- A second entry on the same calendar day. -/
def entry2 : Json :=
  .obj (.cons "dt_txt" (.str "2025-06-01 15:00:00")
    (.cons "main" (.obj (.cons "temp" (.num 23) (.cons "humidity" (.num 35) (.cons "pressure" (.num 1012) .nil))))
    (.cons "weather" (.arr (.cons (.obj (.cons "description" (.str "nuageux") (.cons "icon" (.str "02d") .nil))) .nil))
    (.cons "wind" (.obj (.cons "speed" (.num 4) .nil)) .nil))))

/-- The `city` object of a successful response. -/
def cityInfo1 : Json :=
  .obj (.cons "name" (.str "Paris")
    (.cons "sunrise" (.num 1748750000)
    (.cons "sunset" (.num 1748800000)
    (.cons "timezone" (.num 7200) .nil))))

/-- A successful (`"cod": "200"`) response payload. -/
def payloadOk : Json :=
  .obj (.cons "cod" (.str "200")
    (.cons "city" cityInfo1
    (.cons "list" (.arr (.cons entry1 (.cons entry2 .nil))) .nil)))

/-- A parsed not-found response (`"cod": "404"`). -/
def notFound404 : Json :=
  .obj (.cons "cod" (.str "404") (.cons "message" (.str "city not found") .nil))

/-- A response whose `cod` field is the integer `200`, not the string. -/
def codInt200 : Json := .obj (.cons "cod" (.num 200) .nil)

/-- Cache file contents after a successful fetch of `payloadOk`. -/
def cacheContent1 : String := dumpJson payloadOk

/-- A state with a populated cache, about to run a fetch (for the
exception-fallback scenario). -/
def c3state : AppState :=
  { initState (some cacheContent1) with current_city := "Nice", city_input := "Nice" }

/-- A state reached from `initState` by the event sequence: type "Paris",
fetch successfully, enable geolocation while the geolocation service
raises, clear the input, press search again (geolocation still raising).
It holds forecast data while `current_city` is the empty string. -/
def c8state : AppState :=
  let s1 := { initState none with city_input := "Paris" }
  let s2 := (fetch_weather .failStatus (.ok payloadOk) s1).1
  let s3 := (toggle_geo true (.exn "down") .exn s2).1
  let s4 := { s3 with city_input := "" }
  (fetch_weather (.exn "down") .exn s4).1

/-- A state holding rendered forecast data with a nonempty city (reached by
typing "Paris" and fetching successfully). -/
def c8good : AppState :=
  (fetch_weather .failStatus (.ok payloadOk) { initState none with city_input := "Paris" }).1

/-! ## Remaining definitions used by the theorems -/

mutual
/-- Structural size of a JSON value (fuel measure for the parser). -/
def sizeJ : Json → Nat
  | .null => 1
  | .bool _ => 1
  | .num _ => 1
  | .str _ => 1
  | .arr xs => 1 + sizeA xs
  | .obj xs => 1 + sizeO xs
/-- Structural size of a JSON array tail. -/
def sizeA : JArr → Nat
  | .nil => 0
  | .cons j t => 1 + sizeJ j + sizeA t
/-- Structural size of a JSON object tail. -/
def sizeO : JObj → Nat
  | .nil => 0
  | .cons _ v t => 1 + sizeJ v + sizeO t
end

/-- The three branches of `get_weather_data`'s `try` block for a fetch
outcome: the `cod == "200"` success branch, the parsed-but-not-"200"
message branch, and the exception branch (raised request/parse, or `.get`
on a non-dict response). -/
inductive RespClass where
  | success : RespClass
  | notFound : RespClass
  | exnLike : RespClass
  deriving DecidableEq

/-- Which branch of `get_weather_data` a fetch outcome takes. -/
def respClass : FetchResult → RespClass
  | .exn => .exnLike
  | .ok d =>
    match dictGet d "cod" with
    | none => .exnLike
    | some v => if v = some (Json.str "200") then .success else .notFound

/-- A sequence of user-triggered fetches (city and network outcome each),
run left to right. -/
def runFetches : List (String × FetchResult) → AppState → AppState
  | [], s => s
  | (city, r) :: rest, s => runFetches rest (get_weather_data city r s).1

/-- The payload of the most recent (rightmost) successful fetch of a
sequence, if any. -/
def lastSuccessData : List (String × FetchResult) → Option Json
  | [] => none
  | (_, r) :: rest =>
    match lastSuccessData rest with
    | some d => some d
    | none =>
      match r with
      | .ok d => if dictGet d "cod" = some (some (Json.str "200")) then some d else none
      | .exn => none

/-- A state with a previously stored city and whitespace-only input. -/
def c7s : AppState :=
  { initState none with current_city := "Lyon", city_input := "  " }

/-- A state with a previously stored city and a space as input. -/
def c10s : AppState :=
  { initState (some cacheContent1) with current_city := "Paris", city_input := " " }

set_option maxRecDepth 100000

/-! ## Theorems -/

/-! Digit and number round-trip lemmas. -/

theorem digitVal_digitChar48 : ∀ n, n < 10 → digitVal (digitChar48 n) = n := by decide

theorem isDigitC_digitChar48 : ∀ n, n < 10 → isDigitC (digitChar48 n) = true := by decide

theorem digitsVal_append (xs : List Char) (c : Char) :
    digitsVal (xs ++ [c]) = digitsVal xs * 10 + digitVal c := by
  simp [digitsVal, List.foldl_append]

theorem natCharsAux_spec : ∀ f n, n < f →
    digitsVal (natCharsAux f n) = n ∧ (∀ c ∈ natCharsAux f n, isDigitC c = true) ∧
    natCharsAux f n ≠ [] := by
  intro f
  induction f with
  | zero => omega
  | succ f ih =>
    intro n hn
    by_cases h10 : n < 10
    · simp only [natCharsAux, if_pos h10]
      refine ⟨?_, ?_, by simp⟩
      · simp [digitsVal, digitVal_digitChar48 n h10]
      · intro c hc
        simp at hc
        subst hc
        exact isDigitC_digitChar48 n h10
    · have hdiv : n / 10 < f := by omega
      obtain ⟨h1, h2, h3⟩ := ih (n / 10) hdiv
      simp only [natCharsAux, if_neg h10]
      refine ⟨?_, ?_, by simp⟩
      · rw [digitsVal_append, h1, digitVal_digitChar48 (n % 10) (by omega)]
        omega
      · intro c hc
        rw [List.mem_append] at hc
        rcases hc with hc | hc
        · exact h2 c hc
        · simp at hc
          subst hc
          exact isDigitC_digitChar48 (n % 10) (by omega)

theorem natChars_spec (n : Nat) :
    digitsVal (natChars n) = n ∧ (∀ c ∈ natChars n, isDigitC c = true) ∧ natChars n ≠ [] :=
  natCharsAux_spec (n + 1) n (by omega)

theorem takeWhile_all_append (p : Char → Bool) (l rest : List Char)
    (hl : ∀ c ∈ l, p c = true) (hr : ∀ c, rest.head? = some c → p c = false) :
    (l ++ rest).takeWhile p = l ∧ (l ++ rest).dropWhile p = rest := by
  induction l with
  | nil =>
    simp only [List.nil_append]
    cases rest with
    | nil => simp
    | cons c r =>
      have := hr c rfl
      simp [List.takeWhile, List.dropWhile, this]
  | cons c l ih =>
    have hc := hl c (by simp)
    obtain ⟨ih1, ih2⟩ := ih (fun x hx => hl x (by simp [hx]))
    simp [List.takeWhile, List.dropWhile, hc, ih1, ih2]

theorem parseNatNum_natChars (n : Nat) (rest : List Char)
    (hr : ∀ c, rest.head? = some c → isDigitC c = false) :
    parseNatNum (natChars n ++ rest) = some (n, rest) := by
  obtain ⟨h1, h2, h3⟩ := natChars_spec n
  obtain ⟨ht, hd⟩ := takeWhile_all_append isDigitC (natChars n) rest h2 hr
  simp only [parseNatNum, ht, hd, List.isEmpty_iff, h1]
  simp [h3]

theorem natChars_cons (n : Nat) : ∃ c cs, natChars n = c :: cs ∧ isDigitC c = true := by
  obtain ⟨-, h2, h3⟩ := natChars_spec n
  cases hc : natChars n with
  | nil => exact absurd hc h3
  | cons c cs => exact ⟨c, cs, rfl, h2 c (by simp [hc])⟩

theorem parseNum_dumpInt (i : Int) (rest : List Char)
    (hr : ∀ c, rest.head? = some c → isDigitC c = false) :
    parseNum (dumpInt i ++ rest) = some (i, rest) := by
  by_cases hneg : i < 0
  · simp only [dumpInt, if_pos hneg, List.cons_append, parseNum,
      parseNatNum_natChars (-i).toNat rest hr, Option.map_some']
    have h2 : (((-i).toNat : Int)) = -i := Int.toNat_of_nonneg (by omega)
    rw [h2]
    simp
  · simp only [dumpInt, if_neg hneg]
    obtain ⟨c, cs, hc, hdig⟩ := natChars_cons i.toNat
    rw [hc]
    simp only [List.cons_append, parseNum]
    have hcm : c ≠ '-' := by
      intro h
      rw [h] at hdig
      exact absurd hdig (by decide)
    split
    · rename_i heq
      cases heq
      exact absurd rfl hcm
    · rw [← List.cons_append, ← hc, parseNatNum_natChars i.toNat rest hr]
      simp only [Option.map_some']
      have h2 : ((i.toNat : Int)) = i := Int.toNat_of_nonneg (by omega)
      rw [h2]

theorem hexRound : ∀ m, m < 16 → hexVal (hexDigitL m) = some m := by decide

theorem parse4Hex_hex4 (n : Nat) (rest : List Char) (h : n < 65536) :
    parse4Hex (hex4 n ++ rest) = some (n, rest) := by
  have h1 := hexRound (n / 4096 % 16) (by omega)
  have h2 := hexRound (n / 256 % 16) (by omega)
  have h3 := hexRound (n / 16 % 16) (by omega)
  have h4 := hexRound (n % 16) (by omega)
  simp only [hex4, List.cons_append, List.nil_append, parse4Hex, h1, h2, h3, h4]
  have heq : (((n / 4096 % 16) * 16 + n / 256 % 16) * 16 + n / 16 % 16) * 16 + n % 16 = n := by
    omega
  rw [heq]

theorem char_valid_ranges (c : Char) :
    c.toNat < 55296 ∨ (57344 ≤ c.toNat ∧ c.toNat < 1114112) := by
  have h := c.valid
  simp only [UInt32.isValidChar, Nat.isValidChar] at h
  exact h

theorem decodeU_hex4_bmp (n : Nat) (k : List Char)
    (h1 : n < 55296 ∨ (57344 ≤ n ∧ n < 65536)) :
    decodeU (hex4 n ++ k) = some (Char.ofNat n, k) := by
  rw [decodeU.eq_def, parse4Hex_hex4 n k (by omega)]
  have hs1 : (55296 ≤ n && n ≤ 56319) = false := by
    simp only [Bool.and_eq_false_iff, decide_eq_false_iff_not, not_le]
    omega
  have hs2 : (56320 ≤ n && n ≤ 57343) = false := by
    simp only [Bool.and_eq_false_iff, decide_eq_false_iff_not, not_le]
    omega
  simp [hs1, hs2]

theorem decodeU_hex4_pair (n : Nat) (k : List Char)
    (h1 : 65536 ≤ n) (h2 : n < 1114112) :
    decodeU (hex4 (55296 + (n - 65536) / 1024) ++ ('\\' :: 'u' :: (hex4 (56320 + (n - 65536) % 1024) ++ k)))
      = some (Char.ofNat n, k) := by
  rw [decodeU.eq_def, parse4Hex_hex4 _ _ (by omega)]
  have hs1 : (55296 ≤ 55296 + (n - 65536) / 1024 && 55296 + (n - 65536) / 1024 ≤ 56319) = true := by
    simp only [Bool.and_eq_true, decide_eq_true_eq]
    omega
  simp only [hs1, if_true]
  rw [parse4Hex_hex4 _ _ (by omega)]
  have hs2 : (56320 ≤ 56320 + (n - 65536) % 1024 && 56320 + (n - 65536) % 1024 ≤ 57343) = true := by
    simp only [Bool.and_eq_true, decide_eq_true_eq]
    omega
  simp only [hs2, if_true]
  have harg : 65536 + (55296 + (n - 65536) / 1024 - 55296) * 1024 + (56320 + (n - 65536) % 1024 - 56320) = n := by
    omega
  rw [harg]

theorem parseStrBody_u (f : Nat) (rs k2 : List Char) (d : Char)
    (h : decodeU rs = some (d, k2)) :
    parseStrBody (f + 1) ('\\' :: 'u' :: rs) =
      (parseStrBody f k2).map (fun p => (d :: p.1, p.2)) := by
  simp [parseStrBody, escDecode1, h]

theorem parseStrBody_escChar (c : Char) (k : List Char) (f : Nat) :
    parseStrBody (f + 1) (escChar c ++ k) = (parseStrBody f k).map (fun p => (c :: p.1, p.2)) := by
  have hval := char_valid_ranges c
  by_cases h1 : c = '"'
  · subst h1; rfl
  · by_cases h2 : c = '\\'
    · subst h2; rfl
    · by_cases h3 : c = '\n'
      · subst h3; rfl
      · by_cases h4 : c = '\t'
        · subst h4; rfl
        · by_cases h5 : c = '\r'
          · subst h5; rfl
          · by_cases h6 : c.toNat = 8
            · have hesc : escChar c = ['\\', 'b'] := by
                simp only [escChar]
                rw [if_neg h1, if_neg h2, if_neg h3, if_neg h4, if_neg h5, if_pos h6]
              have hc : Char.ofNat 8 = c := by rw [← h6, Char.ofNat_toNat]
              rw [hesc, ← hc]
              rfl
            · by_cases h7 : c.toNat = 12
              · have hesc : escChar c = ['\\', 'f'] := by
                  simp only [escChar]
                  rw [if_neg h1, if_neg h2, if_neg h3, if_neg h4, if_neg h5, if_neg h6, if_pos h7]
                have hc : Char.ofNat 12 = c := by rw [← h7, Char.ofNat_toNat]
                rw [hesc, ← hc]
                rfl
              · by_cases h8 : c.toNat < 32
                · have hesc : escChar c = '\\' :: 'u' :: hex4 c.toNat := by
                    simp only [escChar]
                    rw [if_neg h1, if_neg h2, if_neg h3, if_neg h4, if_neg h5, if_neg h6,
                      if_neg h7, if_pos h8]
                  have hdec : decodeU (hex4 c.toNat ++ k) = some (c, k) := by
                    rw [decodeU_hex4_bmp c.toNat k (by omega), Char.ofNat_toNat]
                  rw [hesc, List.cons_append, List.cons_append,
                    parseStrBody_u f (hex4 c.toNat ++ k) k c hdec]
                · by_cases h9 : c.toNat ≤ 126
                  · have hesc : escChar c = [c] := by
                      simp only [escChar]
                      rw [if_neg h1, if_neg h2, if_neg h3, if_neg h4, if_neg h5, if_neg h6,
                        if_neg h7, if_neg h8, if_pos h9]
                    rw [hesc, List.cons_append, List.nil_append]
                    simp only [parseStrBody]
                    rw [if_neg h1, if_neg h2]
                  · by_cases h10 : c.toNat ≤ 65535
                    · have hesc : escChar c = '\\' :: 'u' :: hex4 c.toNat := by
                        simp only [escChar]
                        rw [if_neg h1, if_neg h2, if_neg h3, if_neg h4, if_neg h5, if_neg h6,
                          if_neg h7, if_neg h8, if_neg h9, if_pos h10]
                      have hdec : decodeU (hex4 c.toNat ++ k) = some (c, k) := by
                        rw [decodeU_hex4_bmp c.toNat k (by omega), Char.ofNat_toNat]
                      rw [hesc, List.cons_append, List.cons_append,
                        parseStrBody_u f (hex4 c.toNat ++ k) k c hdec]
                    · have hesc : escChar c =
                          ('\\' :: 'u' :: hex4 (55296 + (c.toNat - 65536) / 1024)) ++
                            ('\\' :: 'u' :: hex4 (56320 + (c.toNat - 65536) % 1024)) := by
                        simp only [escChar]
                        rw [if_neg h1, if_neg h2, if_neg h3, if_neg h4, if_neg h5, if_neg h6,
                          if_neg h7, if_neg h8, if_neg h9, if_neg h10]
                      have hdec : decodeU (hex4 (55296 + (c.toNat - 65536) / 1024) ++
                          ('\\' :: 'u' :: (hex4 (56320 + (c.toNat - 65536) % 1024) ++ k))) =
                          some (c, k) := by
                        rw [decodeU_hex4_pair c.toNat k (by omega) (by omega), Char.ofNat_toNat]
                      rw [hesc, List.append_assoc, List.cons_append, List.cons_append,
                        List.cons_append, List.cons_append, parseStrBody_u f _ k c hdec]

theorem parseStrBody_escList (l : List Char) : ∀ (rest : List Char) (f : Nat),
    l.length + 1 ≤ f →
    parseStrBody f (escList l ++ ('"' :: rest)) = some (l, rest) := by
  induction l with
  | nil =>
    intro rest f hf
    match f, hf with
    | f + 1, _ => rfl
  | cons c tl ih =>
    intro rest f hf
    match f, hf with
    | f + 1, hf =>
      rw [escList, List.append_assoc, parseStrBody_escChar c _ f,
        ih rest f (by simpa using Nat.le_of_succ_le_succ hf)]
      rfl

theorem escChar_ne_nil (c : Char) : escChar c ≠ [] := by
  intro h
  have h2 := parseStrBody_escChar c ['"'] 1
  rw [h, List.nil_append] at h2
  simp [parseStrBody] at h2

theorem escChar_length_pos (c : Char) : 1 ≤ (escChar c).length := by
  cases h : escChar c with
  | nil => exact absurd h (escChar_ne_nil c)
  | cons d ds => simp

theorem escList_length (l : List Char) : l.length ≤ (escList l).length := by
  induction l with
  | nil => simp [escList]
  | cons c tl ih =>
    rw [escList, List.length_append, List.length_cons]
    have := escChar_length_pos c
    omega

theorem sizeJ_pos (j : Json) : 1 ≤ sizeJ j := by
  cases j <;> simp [sizeJ]

theorem dumpV_shape (j : Json) : ∃ c cs, dumpV j = c :: cs ∧ c ≠ ']' := by
  cases j with
  | null => exact ⟨'n', _, rfl, by decide⟩
  | bool b =>
    cases b with
    | false => exact ⟨'f', _, rfl, by decide⟩
    | true => exact ⟨'t', _, rfl, by decide⟩
  | num i =>
    by_cases hneg : i < 0
    · refine ⟨'-', natChars (-i).toNat, ?_, by decide⟩
      simp [dumpV, dumpInt, if_pos hneg]
    · obtain ⟨c, cs, hc, hdig⟩ := natChars_cons i.toNat
      refine ⟨c, cs, ?_, ?_⟩
      · simp [dumpV, dumpInt, if_neg hneg, hc]
      · intro h
        rw [h] at hdig
        exact absurd hdig (by decide)
  | str s => exact ⟨'"', _, rfl, by decide⟩
  | arr xs =>
    cases xs with
    | nil => exact ⟨'[', _, rfl, by decide⟩
    | cons j t => exact ⟨'[', _, rfl, by decide⟩
  | obj xs =>
    cases xs with
    | nil => exact ⟨lbrace, _, rfl, by decide⟩
    | cons k v t => exact ⟨lbrace, _, rfl, by decide⟩

mutual
theorem sizeJ_le_dumpV (j : Json) : sizeJ j ≤ (dumpV j).length := by
  cases j with
  | null => simp [sizeJ, dumpV]
  | bool b => cases b <;> simp [sizeJ, dumpV]
  | num i =>
    by_cases hneg : i < 0
    · simp [sizeJ, dumpV, dumpInt, hneg]
    · obtain ⟨c, cs, hc, -⟩ := natChars_cons i.toNat
      simp [sizeJ, dumpV, dumpInt, hneg, hc]
  | str s => simp [sizeJ, dumpV, escString]
  | arr xs =>
    cases xs with
    | nil => simp [sizeJ, sizeA, dumpV]
    | cons x t =>
      have h1 := sizeJ_le_dumpV x
      have h2 := sizeA_le_dumpA t
      simp only [sizeJ, sizeA, dumpV, List.length_append, List.length_cons, List.cons_append]
      omega
  | obj xs =>
    cases xs with
    | nil => simp [sizeJ, sizeO, dumpV]
    | cons k v t =>
      have h1 := sizeJ_le_dumpV v
      have h2 := sizeO_le_dumpO t
      simp only [sizeJ, sizeO, dumpV, List.length_append, List.length_cons, List.cons_append]
      omega
theorem sizeA_le_dumpA (xs : JArr) : sizeA xs ≤ (dumpA xs).length := by
  cases xs with
  | nil => simp [sizeA, dumpA]
  | cons x t =>
    have h1 := sizeJ_le_dumpV x
    have h2 := sizeA_le_dumpA t
    simp only [sizeA, dumpA, List.length_append, List.length_cons, List.cons_append]
    omega
theorem sizeO_le_dumpO (xs : JObj) : sizeO xs ≤ (dumpO xs).length := by
  cases xs with
  | nil => simp [sizeO, dumpO]
  | cons k v t =>
    have h1 := sizeJ_le_dumpV v
    have h2 := sizeO_le_dumpO t
    simp only [sizeO, dumpO, List.length_append, List.length_cons, List.cons_append]
    omega
end

theorem parseV_dump_null (f : Nat) (rest : List Char) :
    parseV (f + 1) (dumpV .null ++ rest) = some (.null, rest) := rfl

theorem parseV_dump_true (f : Nat) (rest : List Char) :
    parseV (f + 1) (dumpV (.bool true) ++ rest) = some (.bool true, rest) := rfl

theorem parseV_dump_false (f : Nat) (rest : List Char) :
    parseV (f + 1) (dumpV (.bool false) ++ rest) = some (.bool false, rest) := rfl

theorem parseV_dump_arrnil (f : Nat) (rest : List Char) :
    parseV (f + 1) (dumpV (.arr .nil) ++ rest) = some (.arr .nil, rest) := rfl

theorem parseV_dump_objnil (f : Nat) (rest : List Char) :
    parseV (f + 1) (dumpV (.obj .nil) ++ rest) = some (.obj .nil, rest) := rfl

theorem parseV_dump_num (f : Nat) (i : Int) (rest : List Char)
    (hr : ∀ c, rest.head? = some c → isDigitC c = false) :
    parseV (f + 1) (dumpV (.num i) ++ rest) = some (.num i, rest) := by
  by_cases hneg : i < 0
  · have hd : dumpInt i = '-' :: natChars (-i).toNat := by simp [dumpInt, hneg]
    rw [show dumpV (.num i) = dumpInt i from rfl, hd, List.cons_append]
    show (parseNum ('-' :: (natChars (-i).toNat ++ rest))).map (fun p => (Json.num p.1, p.2)) =
      some (.num i, rest)
    rw [← List.cons_append, ← hd, parseNum_dumpInt i rest hr]
    rfl
  · obtain ⟨c, cs, hc, hdig⟩ := natChars_cons i.toNat
    have hd : dumpInt i = c :: cs := by simp [dumpInt, hneg, hc]
    have hn : c ≠ 'n' := by intro h; rw [h] at hdig; exact absurd hdig (by decide)
    have ht : c ≠ 't' := by intro h; rw [h] at hdig; exact absurd hdig (by decide)
    have hfc : c ≠ 'f' := by intro h; rw [h] at hdig; exact absurd hdig (by decide)
    have hq : c ≠ '"' := by intro h; rw [h] at hdig; exact absurd hdig (by decide)
    have hbr : c ≠ '[' := by intro h; rw [h] at hdig; exact absurd hdig (by decide)
    have hlb : c ≠ lbrace := by intro h; rw [h] at hdig; exact absurd hdig (by decide)
    rw [show dumpV (.num i) = dumpInt i from rfl, hd, List.cons_append]
    simp only [parseV]
    rw [if_neg hn, if_neg ht, if_neg hfc, if_neg hq, if_neg hbr, if_neg hlb]
    have hcond : (decide (c = '-') || isDigitC c) = true := by simp [hdig]
    rw [if_pos hcond, ← List.cons_append, ← hd, parseNum_dumpInt i rest hr]
    rfl

theorem parseV_dump_str (f : Nat) (s : String) (rest : List Char) :
    parseV (f + 1) (dumpV (.str s) ++ rest) = some (.str s, rest) := by
  have hsh : dumpV (.str s) ++ rest = '"' :: (escList s.data ++ ('"' :: rest)) := by
    simp [dumpV, escString]
  rw [hsh]
  show (parseStrBody ((escList s.data ++ ('"' :: rest)).length + 1)
      (escList s.data ++ ('"' :: rest))).map (fun p => (Json.str ⟨p.1⟩, p.2)) =
    some (.str s, rest)
  rw [parseStrBody_escList s.data rest _ (by
    have := escList_length s.data
    simp only [List.length_append, List.length_cons]
    omega)]
  rfl

theorem dumpA_head_not_digit (t : JArr) (rest : List Char) :
    ∀ c, (dumpA t ++ (']' :: rest)).head? = some c → isDigitC c = false := by
  cases t with
  | nil => intro c hc; simp [dumpA] at hc; subst hc; decide
  | cons y t2 => intro c hc; simp [dumpA] at hc; subst hc; decide

theorem dumpO_head_not_digit (t : JObj) (rest : List Char) :
    ∀ c, (dumpO t ++ (rbrace :: rest)).head? = some c → isDigitC c = false := by
  cases t with
  | nil => intro c hc; simp [dumpO] at hc; subst hc; decide
  | cons k2 v2 t2 => intro c hc; simp [dumpO] at hc; subst hc; decide

mutual
theorem parseV_dumpV (f : Nat) (j : Json) (rest : List Char) (hf : sizeJ j ≤ f)
    (hr : ∀ c, rest.head? = some c → isDigitC c = false) :
    parseV f (dumpV j ++ rest) = some (j, rest) := by
  match f, hf with
  | 0, hf =>
    have := sizeJ_pos j
    omega
  | f + 1, hf =>
    cases j with
    | null => exact parseV_dump_null f rest
    | bool b =>
      cases b with
      | true => exact parseV_dump_true f rest
      | false => exact parseV_dump_false f rest
    | num i => exact parseV_dump_num f i rest hr
    | str s => exact parseV_dump_str f s rest
    | arr xs =>
      cases xs with
      | nil => exact parseV_dump_arrnil f rest
      | cons x t =>
        have hsh : dumpV (.arr (.cons x t)) ++ rest =
            '[' :: (dumpV x ++ (dumpA t ++ (']' :: rest))) := by
          simp [dumpV]
        rw [hsh]
        have hfa : sizeA (JArr.cons x t) ≤ f := by
          simp only [sizeJ] at hf
          omega
        have e1 : ((('[' : Char) = 'n')) = False := by decide
        have e2 : ((('[' : Char) = 't')) = False := by decide
        have e3 : ((('[' : Char) = 'f')) = False := by decide
        have e4 : ((('[' : Char) = '"')) = False := by decide
        simp only [parseV, e1, e2, e3, e4, if_false, eq_self_iff_true, if_true]
        split
        · rename_i heq
          obtain ⟨c, cs, hc, hne⟩ := dumpV_shape x
          rw [hc, List.cons_append] at heq
          cases heq
          exact absurd rfl hne
        · rw [parseAI_dumpA f x t rest hfa]
          rfl
    | obj xs =>
      cases xs with
      | nil => exact parseV_dump_objnil f rest
      | cons k v t =>
        have hsh : dumpV (.obj (.cons k v t)) ++ rest =
            lbrace :: ('"' :: (escList k.data ++
              ('"' :: (':' :: (' ' :: (dumpV v ++ (dumpO t ++ (rbrace :: rest)))))))) := by
          simp [dumpV, escString]
        rw [hsh]
        have hfo : sizeO (JObj.cons k v t) ≤ f := by
          simp only [sizeJ] at hf
          omega
        have e1 : ((lbrace = 'n')) = False := by decide
        have e2 : ((lbrace = 't')) = False := by decide
        have e3 : ((lbrace = 'f')) = False := by decide
        have e4 : ((lbrace = '"')) = False := by decide
        have e5 : ((lbrace = '[')) = False := by decide
        simp only [parseV, e1, e2, e3, e4, e5, if_false, eq_self_iff_true, if_true]
        rw [parseOI_dumpO f k v t rest hfo]
        rfl
theorem parseAI_dumpA (f : Nat) (x : Json) (t : JArr) (rest : List Char)
    (hf : sizeA (.cons x t) ≤ f) :
    parseAI f (dumpV x ++ (dumpA t ++ (']' :: rest))) = some (.cons x t, ']' :: rest) := by
  match f, hf with
  | 0, hf =>
    simp only [sizeA] at hf
    omega
  | f + 1, hf =>
    have hfx : sizeJ x ≤ f := by
      simp only [sizeA] at hf
      omega
    simp only [parseAI]
    rw [parseV_dumpV f x (dumpA t ++ (']' :: rest)) hfx (dumpA_head_not_digit t rest)]
    cases t with
    | nil =>
      simp only [dumpA, List.nil_append]
      rfl
    | cons y t2 =>
      have hsh : dumpA (JArr.cons y t2) ++ (']' :: rest) =
          ',' :: ' ' :: (dumpV y ++ (dumpA t2 ++ (']' :: rest))) := by
        simp [dumpA]
      rw [hsh]
      have hfy : sizeA (JArr.cons y t2) ≤ f := by
        simp only [sizeA] at hf ⊢
        have := sizeJ_pos x
        omega
      show (parseAI f (dumpV y ++ (dumpA t2 ++ (']' :: rest)))).map
          (fun q => (JArr.cons x q.1, q.2)) = some (.cons x (.cons y t2), ']' :: rest)
      rw [parseAI_dumpA f y t2 rest hfy]
      rfl
theorem parseOI_dumpO (f : Nat) (k : String) (v : Json) (t : JObj) (rest : List Char)
    (hf : sizeO (.cons k v t) ≤ f) :
    parseOI f ('"' :: (escList k.data ++
        ('"' :: (':' :: (' ' :: (dumpV v ++ (dumpO t ++ (rbrace :: rest)))))))) =
      some (.cons k v t, rbrace :: rest) := by
  match f, hf with
  | 0, hf =>
    simp only [sizeO] at hf
    omega
  | f + 1, hf =>
    have hfv : sizeJ v ≤ f := by
      simp only [sizeO] at hf
      omega
    have hfuel : k.data.length + 1 ≤
        (escList k.data ++
          ('"' :: (':' :: (' ' :: (dumpV v ++ (dumpO t ++ (rbrace :: rest))))))).length + 1 := by
      have := escList_length k.data
      simp only [List.length_append, List.length_cons]
      omega
    show ((parseStrBody ((escList k.data ++
        ('"' :: (':' :: (' ' :: (dumpV v ++ (dumpO t ++ (rbrace :: rest))))))).length + 1)
        (escList k.data ++
          ('"' :: (':' :: (' ' :: (dumpV v ++ (dumpO t ++ (rbrace :: rest)))))))).bind fun pk =>
        match pk.2 with
        | ':' :: ' ' :: r3 =>
          (parseV f r3).bind fun pv =>
            match pv.2 with
            | ',' :: ' ' :: r5 => (parseOI f r5).map (fun q => (JObj.cons ⟨pk.1⟩ pv.1 q.1, q.2))
            | _ => some (JObj.cons ⟨pk.1⟩ pv.1 .nil, pv.2)
        | _ => none) = some (.cons k v t, rbrace :: rest)
    rw [parseStrBody_escList k.data _ _ hfuel]
    show ((parseV f (dumpV v ++ (dumpO t ++ (rbrace :: rest)))).bind fun pv =>
        match pv.2 with
        | ',' :: ' ' :: r5 => (parseOI f r5).map (fun q => (JObj.cons ⟨k.data⟩ pv.1 q.1, q.2))
        | _ => some (JObj.cons ⟨k.data⟩ pv.1 .nil, pv.2)) = some (.cons k v t, rbrace :: rest)
    rw [parseV_dumpV f v (dumpO t ++ (rbrace :: rest)) hfv (dumpO_head_not_digit t rest)]
    cases t with
    | nil =>
      simp only [dumpO, List.nil_append]
      rfl
    | cons k2 v2 t2 =>
      have hsh : dumpO (JObj.cons k2 v2 t2) ++ (rbrace :: rest) =
          ',' :: ' ' :: ('"' :: (escList k2.data ++
            ('"' :: (':' :: (' ' :: (dumpV v2 ++ (dumpO t2 ++ (rbrace :: rest)))))))) := by
        simp [dumpO, escString]
      rw [hsh]
      have hf2 : sizeO (JObj.cons k2 v2 t2) ≤ f := by
        simp only [sizeO] at hf ⊢
        have := sizeJ_pos v
        omega
      show (parseOI f ('"' :: (escList k2.data ++
          ('"' :: (':' :: (' ' :: (dumpV v2 ++ (dumpO t2 ++ (rbrace :: rest))))))))).map
          (fun q => (JObj.cons ⟨k.data⟩ v q.1, q.2)) =
        some (.cons k v (.cons k2 v2 t2), rbrace :: rest)
      rw [parseOI_dumpO f k2 v2 t2 rest hf2]
      rfl
end

theorem parseJson_dumpJson (j : Json) : parseJson (dumpJson j) = some j := by
  have h1 : parseV ((dumpV j).length + 1) (dumpV j ++ []) = some (j, []) :=
    parseV_dumpV ((dumpV j).length + 1) j [] (by have := sizeJ_le_dumpV j; omega)
      (fun c hc => by simp at hc)
  rw [List.append_nil] at h1
  simp only [parseJson]
  rw [show (dumpJson j).data = dumpV j from rfl,
    show (dumpJson j).length = (dumpV j).length from rfl, h1]

/-! Grouping lemmas. -/

theorem firstOccur_step_mem (acc : List String) (k x : String) :
    x ∈ (if k ∈ acc then acc else acc ++ [k]) ↔ x ∈ acc ∨ x = k := by
  by_cases hk : k ∈ acc
  · rw [if_pos hk]
    constructor
    · exact Or.inl
    · rintro (h | rfl)
      · exact h
      · exact hk
  · rw [if_neg hk]
    simp [List.mem_append]

theorem mem_firstOccur_aux (l : List String) : ∀ (acc : List String) (x : String),
    (x ∈ l.foldl (fun a k => if k ∈ a then a else a ++ [k]) acc) ↔ x ∈ acc ∨ x ∈ l := by
  induction l with
  | nil => simp
  | cons k t ih =>
    intro acc x
    simp only [List.foldl_cons]
    rw [ih, firstOccur_step_mem acc k x, List.mem_cons]
    tauto

theorem mem_firstOccur (ks : List String) (x : String) : x ∈ firstOccur ks ↔ x ∈ ks := by
  rw [firstOccur, mem_firstOccur_aux]
  simp

theorem nodup_firstOccur_aux (l : List String) : ∀ (acc : List String), acc.Nodup →
    (l.foldl (fun a k => if k ∈ a then a else a ++ [k]) acc).Nodup := by
  induction l with
  | nil => intro acc h; simpa using h
  | cons k t ih =>
    intro acc h
    simp only [List.foldl_cons]
    apply ih
    by_cases hk : k ∈ acc
    · simpa [hk] using h
    · rw [if_neg hk]
      simp [List.nodup_append, h, hk]

theorem nodup_firstOccur (ks : List String) : (firstOccur ks).Nodup :=
  nodup_firstOccur_aux ks [] (by simp)

theorem firstOccur_append (ks : List String) (k : String) :
    firstOccur (ks ++ [k]) =
      if k ∈ firstOccur ks then firstOccur ks else firstOccur ks ++ [k] := by
  simp [firstOccur, List.foldl_append]

theorem insertAppend_not_mem {α : Type} (gs : List (String × List α)) (k : String) (v : α)
    (h : k ∉ gs.map Prod.fst) : insertAppend gs k v = gs ++ [(k, [v])] := by
  induction gs with
  | nil => rfl
  | cons g gs ih =>
    obtain ⟨k2, vs⟩ := g
    simp only [List.map_cons, List.mem_cons] at h
    push_neg at h
    obtain ⟨h1, h2⟩ := h
    simp only [insertAppend]
    rw [if_neg (fun hh => h1 hh.symm), ih h2]
    rfl

theorem insertAppend_mapped {α : Type} (ks : List String) (g : String → List α) (k : String)
    (v : α) (hnd : ks.Nodup) (hk : k ∈ ks) :
    insertAppend (ks.map (fun k2 => (k2, g k2))) k v =
      ks.map (fun k2 => (k2, if k2 = k then g k2 ++ [v] else g k2)) := by
  induction ks with
  | nil => simp at hk
  | cons a t ih =>
    have ha : a ∉ t := (List.nodup_cons.mp hnd).1
    simp only [List.map_cons, insertAppend]
    rcases List.mem_cons.mp hk with rfl | hk2
    · rw [if_pos rfl]
      have hfix : ∀ b ∈ t, (b, g b) = (b, if b = k then g b ++ [v] else g b) := by
        intro b hb
        rw [if_neg (fun hh : b = k => ha (hh ▸ hb))]
      rw [if_pos rfl, List.map_congr_left hfix]
    · have hak : a ≠ k := fun hh => ha (hh ▸ hk2)
      rw [if_neg hak, ih (List.nodup_cons.mp hnd).2 hk2, if_neg hak]

theorem filter_key_nil {α : Type} (ps : List (String × α)) (k : String)
    (h : k ∉ ps.map Prod.fst) : ps.filter (fun q => q.1 = k) = [] := by
  induction ps with
  | nil => rfl
  | cons q t ih =>
    simp only [List.map_cons, List.mem_cons] at h
    push_neg at h
    obtain ⟨h1, h2⟩ := h
    rw [List.filter_cons, if_neg (by simp; exact fun hh => h1 hh.symm), ih h2]

theorem groupPairs_eq {α : Type} (ps : List (String × α)) :
    groupPairs ps = (firstOccur (ps.map Prod.fst)).map
      (fun k => (k, (ps.filter (fun q => q.1 = k)).map Prod.snd)) := by
  induction ps using List.reverseRecOn with
  | nil => rfl
  | append_singleton ps p ih =>
    obtain ⟨pk, pv⟩ := p
    rw [show groupPairs (ps ++ [(pk, pv)]) = insertAppend (groupPairs ps) pk pv from by
      simp [groupPairs, List.foldl_append]]
    rw [ih, List.map_append, List.map_cons, List.map_nil, firstOccur_append]
    by_cases hk : pk ∈ firstOccur (ps.map Prod.fst)
    · rw [if_pos hk, insertAppend_mapped _ _ pk pv (nodup_firstOccur _) hk]
      apply List.map_congr_left
      intro b hb
      rw [List.filter_append]
      by_cases hbk : b = pk
      · subst hbk
        simp
      · simp [hbk, Ne.symm hbk]
    · rw [if_neg hk, List.map_append, insertAppend_not_mem _ pk pv (by simpa using hk)]
      congr 1
      · apply List.map_congr_left
        intro b hb
        have hbk : b ≠ pk := fun hh => hk (hh ▸ hb)
        rw [List.filter_append]
        simp [Ne.symm hbk]
      · have hpk : pk ∉ ps.map Prod.fst := fun hh => hk ((mem_firstOccur _ _).mpr hh)
        simp only [List.map_cons, List.map_nil]
        rw [List.filter_append, filter_key_nil ps pk hpk]
        simp

theorem keyedOf_snd (l : List Json) : ∀ ks, keyedOf l = some ks → ks.map Prod.snd = l := by
  induction l with
  | nil =>
    intro ks h
    simp only [keyedOf, Option.some.injEq] at h
    subst h
    rfl
  | cons e r ih =>
    intro ks h
    simp only [keyedOf] at h
    cases hg : groupKey e with
    | none => rw [hg] at h; simp at h
    | some k =>
      rw [hg] at h
      cases hr : keyedOf r with
      | none => rw [hr] at h; simp at h
      | some t =>
        rw [hr] at h
        simp only [Option.map_some', Option.some.injEq] at h
        subst h
        simp [ih t hr]

/-! Application-level helper lemmas. -/

theorem display_cached_frame (s : AppState) :
    (display_cached_weather s).1.cacheFile = s.cacheFile ∧
    (display_cached_weather s).1.current_city = s.current_city := by
  unfold display_cached_weather show_message
  repeat' split
  all_goals exact ⟨rfl, rfl⟩

theorem display_cached_effs (s : AppState) :
    ∀ e ∈ (display_cached_weather s).2, e = Eff.cacheRead ∨ ∃ d c, e = Eff.render d c := by
  unfold display_cached_weather
  repeat' split
  all_goals intro e he
  all_goals simp at he
  all_goals try (exact Or.inl he)
  all_goals rcases he with he | he
  all_goals try (exact Or.inl he)
  all_goals exact Or.inr ⟨_, _, he⟩

theorem display_cached_read (s : AppState) :
    Eff.cacheRead ∈ (display_cached_weather s).2 := by
  unfold display_cached_weather
  repeat' split
  all_goals simp

theorem gwd_cacheFile (city : String) (r : FetchResult) (s : AppState) :
    (get_weather_data city r s).1.cacheFile =
      (match r with
       | .ok d =>
         if dictGet d "cod" = some (some (Json.str "200")) then some (dumpJson d)
         else s.cacheFile
       | .exn => s.cacheFile) := by
  cases r with
  | exn => simp [get_weather_data, (display_cached_frame s).1]
  | ok d =>
    simp only [get_weather_data]
    cases hd : dictGet d "cod" with
    | none => simp [hd, (display_cached_frame s).1]
    | some cod =>
      by_cases hc : cod = some (Json.str "200")
      · subst hc
        simp only [hd, if_pos rfl, ne_eq, not_true_eq_false, if_false]
        split
        · rfl
        · exact (display_cached_frame _).1
      · simp [hd, hc, show_message]

theorem gwd_current_city (city : String) (r : FetchResult) (s : AppState) :
    (get_weather_data city r s).1.current_city = s.current_city := by
  unfold get_weather_data show_message
  repeat' split
  all_goals try rfl
  all_goals exact (display_cached_frame _).2

theorem gwd_write_iff (city : String) (r : FetchResult) (s : AppState) :
    (∃ c, Eff.cacheWrite c ∈ (get_weather_data city r s).2) ↔
      (∃ d, r = .ok d ∧ dictGet d "cod" = some (some (Json.str "200"))) := by
  constructor
  · rintro ⟨c, hc⟩
    cases r with
    | exn =>
      exfalso
      simp only [get_weather_data, List.mem_cons] at hc
      rcases hc with hc | hc
      · exact absurd hc (by simp)
      · rcases display_cached_effs s _ hc with h | ⟨d2, c2, h⟩ <;> simp at h
    | ok d =>
      refine ⟨d, rfl, ?_⟩
      simp only [get_weather_data] at hc
      cases hd : dictGet d "cod" with
      | none =>
        exfalso
        rw [hd] at hc
        simp only [List.mem_cons] at hc
        rcases hc with hc | hc
        · exact absurd hc (by simp)
        · rcases display_cached_effs s _ hc with h | ⟨d2, c2, h⟩ <;> simp at h
      | some cod =>
        rw [hd] at hc
        by_cases hcs : cod = some (Json.str "200")
        · rw [hcs]
        · exfalso
          simp only [if_pos (show cod ≠ some (Json.str "200") from hcs)] at hc
          simp at hc
  · rintro ⟨d, rfl, hd⟩
    refine ⟨dumpJson d, ?_⟩
    simp only [get_weather_data, hd, ne_eq, not_true_eq_false, if_false]
    split
    · simp
    · simp

/-! Claim theorems (drafts). -/

/-- C2: the on-disk cache is a single slot overwritten wholesale and only
ever by a successful fetch: after any sequence of fetches the cache file
holds the serialized payload of the most recent fetch whose response was a
dict with `cod` equal to the string `"200"` (or its initial contents when
none succeeded), and within one fetch `save_to_cache` is invoked exactly
when the response has that form. -/
theorem c2_cache_single_slot (fs : List (String × FetchResult)) (s0 : AppState) :
    ((runFetches fs s0).cacheFile =
      match lastSuccessData fs with
      | some d => some (dumpJson d)
      | none => s0.cacheFile) ∧
    (∀ city r s, (∃ c, Eff.cacheWrite c ∈ (get_weather_data city r s).2) ↔
      (∃ d, r = FetchResult.ok d ∧ dictGet d "cod" = some (some (Json.str "200")))) := by
  refine ⟨?_, fun city r s => gwd_write_iff city r s⟩
  induction fs generalizing s0 with
  | nil => rfl
  | cons p rest ih =>
    obtain ⟨city, r⟩ := p
    simp only [runFetches, lastSuccessData]
    rw [ih]
    cases hls : lastSuccessData rest with
    | some d => rfl
    | none =>
      simp only []
      rw [gwd_cacheFile]
      cases r with
      | exn => rfl
      | ok d =>
        by_cases hc : dictGet d "cod" = some (some (Json.str "200"))
        · simp [hc]
        · simp [hc]

/-- C5: cache round-trip — `save_to_cache` of any record followed by
`load_from_cache` yields an equal record (the outer `some` says the read
raised no exception, the inner value is the record), whatever the previous
file contents. -/
theorem c5_cache_roundtrip (d : Json) (file0 : Option String) :
    load_from_cache (save_to_cache d file0) = some (some d) := by
  simp [save_to_cache, load_from_cache, parseJson_dumpJson d]

/-- C9: fetch success is decided by exact string comparison — within a
parsed response, `save_to_cache` is invoked iff the response is a dict
whose `cod` field is exactly the string `"200"`; for any other `cod` value
(the integer `200` included, via the witness) the not-found branch runs:
the `weather_not_found` message is shown and the only effect is the
network request. -/
theorem c9_success_iff (city : String) (data : Json) (s : AppState) :
    ((∃ c, Eff.cacheWrite c ∈ (get_weather_data city (.ok data) s).2) ↔
      dictGet data "cod" = some (some (Json.str "200"))) ∧
    (∀ v, dictGet data "cod" = some v → v ≠ some (Json.str "200") →
      get_weather_data city (.ok data) s =
        (show_message s (tr s.language "weather_not_found"),
         [Eff.netForecast city s.units (langStr s.language)])) := by
  constructor
  · rw [gwd_write_iff]
    constructor
    · rintro ⟨d, hd, h⟩
      cases hd
      exact h
    · intro h
      exact ⟨data, rfl, h⟩
  · intro v hv hne
    simp only [get_weather_data, hv, if_pos hne]

/-- C4 (amended): on success the cache store is written and the renderer
invoked; only the exception-like failures (raised request or parse, or a
non-dict response body) lead to the cache-read fallback; a parsed
not-found response neither reads nor writes the cache. -/
theorem c4_amended_flow (city : String) (r : FetchResult) (s : AppState) :
    (respClass r = .exnLike → Eff.cacheRead ∈ (get_weather_data city r s).2) ∧
    (respClass r = .notFound → ∀ e ∈ (get_weather_data city r s).2,
      e ≠ Eff.cacheRead ∧ ∀ c, e ≠ Eff.cacheWrite c) ∧
    (respClass r = .success →
      (∃ c, Eff.cacheWrite c ∈ (get_weather_data city r s).2) ∧
      ∃ d c2, Eff.render d c2 ∈ (get_weather_data city r s).2) := by
  refine ⟨?_, ?_, ?_⟩
  · intro hcl
    cases r with
    | exn =>
      simp only [get_weather_data, List.mem_cons]
      exact Or.inr (display_cached_read s)
    | ok d =>
      simp only [respClass] at hcl
      cases hd : dictGet d "cod" with
      | none =>
        simp only [get_weather_data, hd, List.mem_cons]
        exact Or.inr (display_cached_read s)
      | some cod =>
        rw [hd] at hcl
        exfalso
        by_cases hcs : cod = some (Json.str "200") <;> simp [hcs] at hcl
  · intro hcl e he
    cases r with
    | exn => simp [respClass] at hcl
    | ok d =>
      simp only [respClass] at hcl
      cases hd : dictGet d "cod" with
      | none => rw [hd] at hcl; simp at hcl
      | some cod =>
        rw [hd] at hcl
        by_cases hcs : cod = some (Json.str "200")
        · simp [hcs] at hcl
        · simp only [get_weather_data, hd,
            if_pos (show cod ≠ some (Json.str "200") from hcs)] at he
          simp at he
          subst he
          exact ⟨by simp, fun c => by simp⟩
  · intro hcl
    cases r with
    | exn => simp [respClass] at hcl
    | ok d =>
      simp only [respClass] at hcl
      cases hd : dictGet d "cod" with
      | none => rw [hd] at hcl; simp at hcl
      | some cod =>
        rw [hd] at hcl
        by_cases hcs : cod = some (Json.str "200")
        · subst hcs
          constructor
          · refine ⟨dumpJson d, ?_⟩
            simp only [get_weather_data, hd, ne_eq, not_true_eq_false, if_false]
            split
            · simp
            · simp
          · refine ⟨d, city, ?_⟩
            simp only [get_weather_data, hd, ne_eq, not_true_eq_false, if_false]
            split
            · simp
            · simp
        · simp [hcs] at hcl

/-- C7: with auto-geolocation disabled and input that strips to the empty
string, triggering a fetch displays only the "please enter a city" prompt
and produces an empty effect list — no network request and no cache read
or write; the state changes only in `current_city` and the layout (in
particular the cache file is untouched). -/
theorem c7_empty_input (s : AppState) (g : GeoResult) (r : FetchResult)
    (hgeo : s.auto_geo_enabled = false) (hempty : pyStrip s.city_input = "") :
    fetch_weather g r s =
      ({ s with
          current_city := "",
          layoutWidgets := [Widget.message (tr s.language "please_enter_city")] }, []) := by
  simp only [fetch_weather, hempty, hgeo]
  rfl

/-- C10: `fetch_weather` overwrites `current_city` with the stripped input
text before validating it, on every geolocation-disabled path — so on the
empty-input error path a previously stored city is replaced by the empty
string (the shell state is not left unchanged). -/
theorem c10_city_overwrite (s : AppState) (g : GeoResult) (r : FetchResult)
    (hgeo : s.auto_geo_enabled = false) :
    (fetch_weather g r s).1.current_city = pyStrip s.city_input := by
  simp only [fetch_weather, hgeo]
  by_cases he : pyStrip s.city_input = ""
  · simp only [he]
    rfl
  · simp only [he, Bool.not_false, Bool.and_true]
    rw [if_neg (by simp [he])]
    rw [if_neg (by simp)]
    rw [gwd_current_city]

/-- C6: icon fetch is idempotent — once a `get_weather_icon` call returns a
path, calling it again with the same identifier returns the same path via
the on-disk existence check, leaves the world unchanged and performs no
effect at all (no directory creation, no network request), whatever the
second call's network oracle. -/
theorem c6_icon_idempotent (code : String) (n1 n2 : IconNet) (w : IconWorld)
    (p : String) (w1 : IconWorld) (e1 : List IconEff)
    (h : get_weather_icon code n1 w = (some p, w1, e1)) :
    get_weather_icon code n2 w1 = (some p, w1, []) := by
  simp only [get_weather_icon] at h
  by_cases hd : w.dirExists
  · simp only [hd, if_true] at h
    by_cases hmem : iconPath code ∈ w.files
    · rw [if_pos hmem] at h
      cases h
      simp [get_weather_icon, hd, hmem]
    · rw [if_neg hmem] at h
      cases n1 with
      | exn => simp at h
      | resp st =>
        by_cases hst : st = 200
        · simp only [hst, if_pos rfl] at h
          cases h
          simp [get_weather_icon, hd]
        · simp only [if_neg hst] at h
          simp at h
  · simp only [hd, Bool.false_eq_true, if_false] at h
    by_cases hmem : iconPath code ∈ w.files
    · rw [if_pos hmem] at h
      cases h
      simp [get_weather_icon, hmem]
    · rw [if_neg hmem] at h
      cases n1 with
      | exn => simp at h
      | resp st =>
        by_cases hst : st = 200
        · simp only [hst, if_pos rfl] at h
          cases h
          simp [get_weather_icon]
        · simp only [if_neg hst] at h
          simp at h

theorem refresh_display_some (s : AppState) (d : Json) (ws : List Widget)
    (hd : s.current_weather_data = some d) (ht : d.isTruthy = true) (hc : s.current_city ≠ "")
    (hdf : display_forecast d s.current_city = some ws) :
    refresh_display s = ({ s with layoutWidgets := ws }, [Eff.render d s.current_city]) := by
  simp only [refresh_display, hd]
  rw [if_pos (by simp [ht, hc]), hdf]

theorem refresh_display_none (s : AppState) (d : Json)
    (hd : s.current_weather_data = some d) (ht : d.isTruthy = true) (hc : s.current_city ≠ "")
    (hdf : display_forecast d s.current_city = none) :
    refresh_display s = ({ s with crashed := true }, [Eff.render d s.current_city]) := by
  simp only [refresh_display, hd]
  rw [if_pos (by simp [ht, hc]), hdf]

/-- C8 (amended): when forecast data is held (truthy) and `current_city` is
nonempty, both the theme toggle and a language change keep the held data
and re-invoke the renderer on that same data and city; the rebuilt layout
is exactly the renderer's output for the held data, so the displayed
forecast data is identical before and after the transition. -/
theorem c8_amended_rerender (s : AppState) (d : Json)
    (hd : s.current_weather_data = some d) (ht : d.isTruthy = true) (hc : s.current_city ≠ "") :
    ((toggle_theme s).1.current_weather_data = some d ∧
      Eff.render d s.current_city ∈ (toggle_theme s).2 ∧
      ∀ ws, display_forecast d s.current_city = some ws →
        (toggle_theme s).1.layoutWidgets = ws) ∧
    (∀ t, (change_language t s).1.current_weather_data = some d ∧
      Eff.render d s.current_city ∈ (change_language t s).2 ∧
      ∀ ws, display_forecast d s.current_city = some ws →
        (change_language t s).1.layoutWidgets = ws) := by
  have htt : truthyOpt s.current_weather_data = true := by simp [truthyOpt, hd, ht]
  constructor
  · have hstep : toggle_theme s = refresh_display { s with is_dark_theme := !s.is_dark_theme } := by
      simp only [toggle_theme]
      rw [if_pos (by simpa [truthyOpt, hd] using ht)]
    cases hdf : display_forecast d s.current_city with
    | some ws =>
      rw [hstep,
        refresh_display_some { s with is_dark_theme := !s.is_dark_theme } d ws hd ht hc hdf]
      refine ⟨hd, by simp, ?_⟩
      intro ws2 hws2
      cases hws2
      rfl
    | none =>
      rw [hstep,
        refresh_display_none { s with is_dark_theme := !s.is_dark_theme } d hd ht hc hdf]
      refine ⟨hd, by simp, ?_⟩
      intro ws2 hws2
      cases hws2
  · intro t
    have hs1 : ({ s with language := langMap t } : AppState).current_weather_data = some d := hd
    have hc1 : ({ s with language := langMap t } : AppState).current_city ≠ "" := hc
    cases hdf : display_forecast d s.current_city with
    | some ws =>
      have h1 : update_ui { s with language := langMap t } =
          ({ s with language := langMap t, layoutWidgets := ws },
           [Eff.render d s.current_city]) := by
        simp only [update_ui]
        rw [if_pos (by simpa [truthyOpt, hd] using ht),
          refresh_display_some _ d ws hs1 ht hc1 hdf]
      have h2 : refresh_display ({ s with language := langMap t, layoutWidgets := ws }) =
          ({ s with language := langMap t, layoutWidgets := ws },
           [Eff.render d s.current_city]) :=
        refresh_display_some _ d ws hd ht hc hdf
      simp only [change_language, h1]
      rw [if_pos (by simpa [truthyOpt, hd] using ht), h2]
      refine ⟨hd, by simp, ?_⟩
      intro ws2 hws2
      cases hws2
      rfl
    | none =>
      have h1 : update_ui { s with language := langMap t } =
          ({ s with language := langMap t, crashed := true },
           [Eff.render d s.current_city]) := by
        simp only [update_ui]
        rw [if_pos (by simpa [truthyOpt, hd] using ht),
          refresh_display_none _ d hs1 ht hc1 hdf]
      have h2 : refresh_display ({ s with language := langMap t, crashed := true }) =
          ({ s with language := langMap t, crashed := true },
           [Eff.render d s.current_city]) :=
        refresh_display_none _ d hd ht hc hdf
      simp only [change_language, h1]
      rw [if_pos (by simpa [truthyOpt, hd] using ht), h2]
      refine ⟨hd, by simp, ?_⟩
      intro ws2 hws2
      cases hws2

/-- C1: the grouper of `display_forecast` produces, for every keyed forecast
list (each entry paired with its `dt_txt.split(" ")[0]` key by `keyedOf`,
preserving source order), exactly one group per distinct key: `groupPairs`
(the `defaultdict(list)` loop) equals the first-appearance-ordered key list
mapped to the ordered filter of the source entries with that key — so
entries within each group preserve source order, groups are in insertion
order, the keys are pairwise distinct, and no entry is dropped or
re-sorted.  `renderDays` then renders that list in order. -/
theorem c1_grouping (l : List Json) (keyed : List (String × Json))
    (hk : keyedOf l = some keyed) :
    keyed.map Prod.snd = l ∧
    groupPairs keyed = (firstOccur (keyed.map Prod.fst)).map
      (fun k => (k, (keyed.filter (fun q => q.1 = k)).map Prod.snd)) ∧
    ((groupPairs keyed).map Prod.fst).Nodup := by
  refine ⟨keyedOf_snd l keyed hk, groupPairs_eq keyed, ?_⟩
  rw [groupPairs_eq keyed, List.map_map]
  have hcomp : (Prod.fst ∘ fun k =>
      (k, (keyed.filter (fun q => q.1 = k)).map Prod.snd)) = id := rfl
  rw [hcomp, List.map_id]
  exact nodup_firstOccur _

/-- Witness for C1 at a concrete two-entry forecast list. -/
theorem c1_grouping_witness :
    ([("2025-06-01", entry1), ("2025-06-01", entry2)] : List (String × Json)).map Prod.snd
        = [entry1, entry2] ∧
    groupPairs [("2025-06-01", entry1), ("2025-06-01", entry2)] =
      (firstOccur ([("2025-06-01", entry1), ("2025-06-01", entry2)].map Prod.fst)).map
        (fun k => (k, ([("2025-06-01", entry1), ("2025-06-01", entry2)].filter
          (fun q => q.1 = k)).map Prod.snd)) ∧
    ((groupPairs [("2025-06-01", entry1), ("2025-06-01", entry2)]).map Prod.fst).Nodup :=
  c1_grouping [entry1, entry2] [("2025-06-01", entry1), ("2025-06-01", entry2)] (by decide)

/-- C3 (code bug at the concrete failing input): when the fetch raises and
a well-formed cached record exists, the cache is read and the renderer is
invoked on the cached payload (which is renderable), but the final layout
holds only the offline notice — the `show_message` call at the end of
`display_cached_weather` (line 860) clears the forecast widgets
`display_forecast` just inserted, so the cached forecast is not left on
display, contrary to the claim (and to the spec scenario "display shows
cached city's forecast plus an offline notice"). -/
theorem c3_fallback_wipes_forecast :
    Eff.cacheRead ∈ (get_weather_data "Nice" FetchResult.exn c3state).2 ∧
    Eff.render payloadOk "Paris" ∈ (get_weather_data "Nice" FetchResult.exn c3state).2 ∧
    (get_weather_data "Nice" FetchResult.exn c3state).1.current_weather_data = some payloadOk ∧
    display_forecast payloadOk "Paris" ≠ none ∧
    (get_weather_data "Nice" FetchResult.exn c3state).1.layoutWidgets =
      [Widget.message offlineNotice] := by
  decide

/-- C4 (counterexample): a parsed not-found response (`"cod": "404"`) is a
failed fetch whose whole effect trace is the network request — the cache is
not read (nor written) and the state's cache file is unchanged, refuting
"every failed fetch leads to a cache read". -/
theorem c4_counterexample :
    (get_weather_data "Nice" (.ok notFound404) c3state).2 =
      [Eff.netForecast "Nice" "metric" "fr"] ∧
    (get_weather_data "Nice" (.ok notFound404) c3state).1.cacheFile = c3state.cacheFile ∧
    (get_weather_data "Nice" (.ok notFound404) c3state).1.layoutWidgets =
      [Widget.message (tr Lang.fr "weather_not_found")] := by
  decide

/-- Witness for the amended C4: the exception branch at a concrete state
reads the cache. -/
theorem c4_amended_witness :
    Eff.cacheRead ∈ (get_weather_data "Nice" FetchResult.exn c3state).2 :=
  (c4_amended_flow "Nice" FetchResult.exn c3state).1 rfl

/-- Witness for C7 at a concrete state with whitespace input. -/
theorem c7_witness :
    fetch_weather GeoResult.failStatus FetchResult.exn c7s =
      ({ c7s with
          current_city := "",
          layoutWidgets := [Widget.message (tr c7s.language "please_enter_city")] }, []) :=
  c7_empty_input c7s GeoResult.failStatus FetchResult.exn rfl (by decide)

/-- Witness for C9: the integer `200` takes the not-found branch. -/
theorem c9_witness :
    get_weather_data "X" (.ok codInt200) (initState none) =
      (show_message (initState none) (tr Lang.fr "weather_not_found"),
       [Eff.netForecast "X" "metric" "fr"]) :=
  (c9_success_iff "X" codInt200 (initState none)).2 (some (Json.num 200)) rfl (by decide)

/-- Witness for C10: a stored city is replaced by the empty string. -/
theorem c10_witness :
    (fetch_weather GeoResult.failStatus FetchResult.exn c10s).1.current_city = "" := by
  have h := c10_city_overwrite c10s GeoResult.failStatus FetchResult.exn rfl
  rw [h]
  decide

/-- Witness for C6: a download followed by a second call returns the
cached path with no effects. -/
theorem c6_witness :
    get_weather_icon "01d" IconNet.exn
        (get_weather_icon "01d" (IconNet.resp 200) ⟨false, []⟩).2.1 =
      (some (iconPath "01d"),
       (get_weather_icon "01d" (IconNet.resp 200) ⟨false, []⟩).2.1, []) :=
  c6_icon_idempotent "01d" (IconNet.resp 200) IconNet.exn ⟨false, []⟩ (iconPath "01d")
    (get_weather_icon "01d" (IconNet.resp 200) ⟨false, []⟩).2.1
    (get_weather_icon "01d" (IconNet.resp 200) ⟨false, []⟩).2.2 rfl

/-- C8 (counterexample): `c8state` — reached from the initial state by the
modelled event handlers — holds truthy forecast data while `current_city`
is the empty string; toggling the theme there produces no effects (in
particular the renderer is not re-invoked) and leaves the layout
unchanged, refuting "every theme transition with held data re-invokes the
renderer": `refresh_display` also requires a truthy `current_city`. -/
theorem c8_counterexample :
    truthyOpt c8state.current_weather_data = true ∧
    c8state.current_city = "" ∧
    (toggle_theme c8state).2 = [] ∧
    (toggle_theme c8state).1.layoutWidgets = c8state.layoutWidgets := by
  decide

/-- Witness for the amended C8 at a state holding rendered data. -/
theorem c8_amended_witness :
    Eff.render payloadOk c8good.current_city ∈ (toggle_theme c8good).2 :=
  ((c8_amended_rerender c8good payloadOk (by decide) (by decide) (by decide)).1).2.1
